import Mathlib

/-!
Verification development for the incident-intelligence server core.

Shallow embedding of the server-side services:
`circuitBreaker.js`, `eventQueue.js`, `piiRedactor.js`, `spikeDetection.js`
(spike detector and aggregation worker), `severityScoring.js`, `aiService.js`
(retry loop) and the incident PATCH controller.  Times are naturals
(milliseconds since epoch), JS numbers are rationals, JS `undefined`/`null`
are `Option`.
-/

namespace IncidentCore

/-- JS `a || b` for an optional number: `undefined`, `null` and `0` are falsy. -/
def jsOrNat (o : Option Nat) (d : Nat) : Nat :=
  match o with
  | some 0 => d
  | some n => n
  | none => d

/-- JS `a || b` for an optional string: `undefined`, `null` and `""` are falsy. -/
def jsOrStr (o : Option String) (d : String) : String :=
  match o with
  | some s => if s = "" then d else s
  | none => d

/-- The JS `Math.round(x * 100) / 100` two-decimal rounding used throughout
`spikeDetection.js` and `severityScoring.js`.  `Math.round` is
round-half-up, which is Mathlib's `round`. -/
def round2 (q : ℚ) : ℚ := (round (q * 100) : ℚ) / 100

/- ### Circuit breaker (`src/server/services/circuitBreaker.js`) -/

/-- The three states of `STATE` in `circuitBreaker.js`
(`CLOSED`, `OPEN`, `HALF_OPEN`). -/
inductive BreakerState where
  | closed
  | opened
  | halfOpen
deriving DecidableEq, Repr

/-- The `CircuitBreaker` class state: configuration, control state and the
`metrics` object (its `stateChanges` audit entries are `(from, to, time)`). -/
structure CircuitBreaker where
  name : String
  failureThreshold : Nat
  successThreshold : Nat
  timeout : Nat
  state : BreakerState
  failures : Nat
  successes : Nat
  lastFailureTime : Option Nat
  nextAttempt : Option Nat
  totalCalls : Nat
  successfulCalls : Nat
  failedCalls : Nat
  rejectedCalls : Nat
  stateChanges : List (BreakerState × BreakerState × Nat)
deriving DecidableEq, Repr

/-- The `CircuitBreaker` constructor with option defaults
(`failureThreshold` 5, `successThreshold` 2, `timeout` 60000). -/
def mkCircuitBreaker (name : String) (ft st timeout : Option Nat) : CircuitBreaker :=
  { name := name
    failureThreshold := jsOrNat ft 5
    successThreshold := jsOrNat st 2
    timeout := jsOrNat timeout 60000
    state := .closed
    failures := 0
    successes := 0
    lastFailureTime := none
    nextAttempt := none
    totalCalls := 0
    successfulCalls := 0
    failedCalls := 0
    rejectedCalls := 0
    stateChanges := [] }

/-- Model of `transitionTo(newState)`: record the audit entry (keeping the last 10),
switch state, and apply the per-state resets (`OPEN` schedules
`nextAttempt = now + timeout` and zeroes `successes`; `CLOSED` zeroes both
counters and clears `nextAttempt`; `HALF_OPEN` zeroes `successes`). -/
def transitionTo (cb : CircuitBreaker) (newState : BreakerState) (now : Nat) :
    CircuitBreaker :=
  let changes := cb.stateChanges ++ [(cb.state, newState, now)]
  let changes := if changes.length > 10 then changes.tail else changes
  let cb := { cb with state := newState, stateChanges := changes }
  match newState with
  | .opened => { cb with nextAttempt := some (now + cb.timeout), successes := 0 }
  | .closed => { cb with failures := 0, successes := 0, nextAttempt := none }
  | .halfOpen => { cb with successes := 0 }

/-- Model of `canExecute()`: `CLOSED` and `HALF_OPEN` permit the call; `OPEN` permits
it and transitions to `HALF_OPEN` once `Date.now() >= nextAttempt` (JS
compares a null `nextAttempt` as 0, hence `getD 0`).  Returns the boolean
together with the possibly updated breaker. -/
def canExecute (cb : CircuitBreaker) (now : Nat) : Bool × CircuitBreaker :=
  match cb.state with
  | .closed => (true, cb)
  | .opened =>
      if cb.nextAttempt.getD 0 ≤ now then (true, transitionTo cb .halfOpen now)
      else (false, cb)
  | .halfOpen => (true, cb)

/-- Model of `recordSuccess()`: bump the call metrics; in `HALF_OPEN` count the
success and close once `successThreshold` is reached; in `CLOSED` reset the
failure counter; in `OPEN` touch nothing else. -/
def recordSuccess (cb : CircuitBreaker) (now : Nat) : CircuitBreaker :=
  let cb := { cb with
    totalCalls := cb.totalCalls + 1
    successfulCalls := cb.successfulCalls + 1 }
  match cb.state with
  | .halfOpen =>
      let cb := { cb with successes := cb.successes + 1 }
      if cb.successThreshold ≤ cb.successes then transitionTo cb .closed now else cb
  | .closed => { cb with failures := 0 }
  | .opened => cb

/-- Model of `recordFailure(error)`: bump the call metrics and `lastFailureTime`; any
failure in `HALF_OPEN` reopens; in `CLOSED` count the failure and open once
`failureThreshold` is reached; in `OPEN` touch nothing else. -/
def recordFailure (cb : CircuitBreaker) (now : Nat) : CircuitBreaker :=
  let cb := { cb with
    totalCalls := cb.totalCalls + 1
    failedCalls := cb.failedCalls + 1
    lastFailureTime := some now }
  match cb.state with
  | .halfOpen => transitionTo cb .opened now
  | .closed =>
      let cb := { cb with failures := cb.failures + 1 }
      if cb.failureThreshold ≤ cb.failures then transitionTo cb .opened now else cb
  | .opened => cb

/-- Iterate a state transformer `n` times, last application outermost. -/
def applyN (f : α → α) : Nat → α → α
  | 0, x => x
  | n + 1, x => f (applyN f n x)

/-- The breaker after `failureThreshold` consecutive `recordFailure` calls
at time `t`. -/
def afterFailures (cb : CircuitBreaker) (t : Nat) : CircuitBreaker :=
  applyN (fun c => recordFailure c t) cb.failureThreshold cb

/-- The breaker after the post-cooldown `canExecute()` probe at time `now`. -/
def probed (cb : CircuitBreaker) (t now : Nat) : CircuitBreaker :=
  (canExecute (afterFailures cb t) now).2

/- ### Event queue (`src/server/services/eventQueue.js`) -/

/-- One queued item: `{ data: eventData, timestamp: Date.now() }`.  The
event payload type is abstract. -/
structure QueueItem (α : Type) where
  data : α
  timestamp : Nat
deriving DecidableEq, Repr

/-- The `EventQueue` class state (`queue`, `wsBuffer`, the two timer/flag
booleans and the `stats` counters). -/
structure EventQueue (α : Type) where
  maxQueueSize : Nat
  batchSize : Nat
  batchInterval : Nat
  wsBatchSize : Nat
  wsBatchInterval : Nat
  queue : List (QueueItem α)
  wsBuffer : List α
  processing : Bool
  batchTimer : Bool
  enqueued : Nat
  processed : Nat
  rejected : Nat
  batches : Nat
deriving DecidableEq, Repr

/-- The `EventQueue` constructor with its option defaults. -/
def mkEventQueue (α : Type) (maxQueueSize batchSize batchInterval wsBatchSize
    wsBatchInterval : Option Nat) : EventQueue α :=
  { maxQueueSize := jsOrNat maxQueueSize 10000
    batchSize := jsOrNat batchSize 100
    batchInterval := jsOrNat batchInterval 1000
    wsBatchSize := jsOrNat wsBatchSize 10
    wsBatchInterval := jsOrNat wsBatchInterval 100
    queue := []
    wsBuffer := []
    processing := false
    batchTimer := false
    enqueued := 0
    processed := 0
    rejected := 0
    batches := 0 }

/-- The value returned by `enqueue`: `{success, queued?, reason?, queueSize}`. -/
structure EnqueueResult where
  success : Bool
  queued : Option Bool
  reason : Option String
  queueSize : Nat
deriving DecidableEq, Repr

/-- Model of `enqueue(eventData)`: reject with `queue_full` when
`queue.length >= maxQueueSize` (bumping the `rejected` counter and leaving
the queue alone); otherwise push the item, bump `enqueued`, arm the batch
timer when neither it nor a drain is active, and accept. -/
def enqueue (q : EventQueue α) (eventData : α) (now : Nat) :
    EnqueueResult × EventQueue α :=
  if q.maxQueueSize ≤ q.queue.length then
    ({ success := false, queued := none, reason := some "queue_full",
       queueSize := q.queue.length },
     { q with rejected := q.rejected + 1 })
  else
    let q := { q with
      queue := q.queue ++ [⟨eventData, now⟩]
      enqueued := q.enqueued + 1 }
    let q := if !q.batchTimer && !q.processing then { q with batchTimer := true } else q
    ({ success := true, queued := some true, reason := none,
       queueSize := q.queue.length }, q)

/-- Fold a list of `(event, arrival time)` pairs through `enqueue`,
keeping only the evolving queue state. -/
def enqueueAll (q : EventQueue α) (es : List (α × Nat)) : EventQueue α :=
  es.foldl (fun acc en => (enqueue acc en.1 en.2).2) q

/- ### Severity scoring (`severityScoring.js` with `config/services.js`) -/

/-- JS `String.prototype.toLowerCase` on the ASCII service names used here. -/
def toLowerStr (s : String) : String := String.mk (s.data.map Char.toLower)

/-- The `severityConfig.baseScores` table (JS object indexing returns
`undefined` off the table, hence `Option`). -/
def baseScores (level : ℤ) : Option ℚ :=
  if level = 1 then some 10
  else if level = 2 then some 25
  else if level = 3 then some 50
  else if level = 4 then some 75
  else if level = 5 then some 100
  else none

/-- Model of `getBaseScore(severity)`: clamp `Math.round(severity)` into 1..5 and look
up the base score, falling back to `baseScores[1] = 10` (the JS `||`). -/
def getBaseScore (severity : ℚ) : ℚ :=
  (baseScores (min (max (round severity) 1) 5)).getD 10

/-- The `criticalServices` multiplier table from `config/services.js`
(JS object lookup). -/
def criticalServiceMultiplier (s : String) : Option ℚ :=
  if s = "payment-service" then some 2
  else if s = "auth-service" then some (9/5)
  else if s = "database" then some 2
  else if s = "api-gateway" then some (3/2)
  else if s = "order-service" then some (8/5)
  else if s = "inventory-service" then some (7/5)
  else none

/-- Model of `getServiceMultiplier(serviceName)`: case-insensitive table lookup with
default multiplier 1.0. -/
def getServiceMultiplier (serviceName : String) : ℚ :=
  (criticalServiceMultiplier (toLowerStr serviceName)).getD 1

/-- Model of `getFrequencyMultiplier(currentRate, baselineRate)`: the zero-baseline
special case, then the ratio thresholds `critical 4.0 / high 2.5 /
elevated 1.5` mapping to multipliers `2.0 / 1.6 / 1.3`, else 1.0. -/
def getFrequencyMultiplier (currentRate baselineRate : ℚ) : ℚ × String :=
  if baselineRate = 0 then
    if 0 < currentRate then (13/10, "elevated") else (1, "normal")
  else
    if 4 ≤ currentRate / baselineRate then (2, "critical")
    else if 5/2 ≤ currentRate / baselineRate then (8/5, "high")
    else if 3/2 ≤ currentRate / baselineRate then (13/10, "elevated")
    else (1, "normal")

/-- An event as consumed by the scorer: only `service` and `severity`. -/
structure SEvent where
  service : String
  severity : ℚ
deriving DecidableEq, Repr

/-- The object returned by `scoreEvent`. -/
structure ScoreEventResult where
  baseScore : ℚ
  serviceMultiplier : ℚ
  frequencyMultiplier : ℚ
  frequencyLevel : String
  finalScore : ℤ
  isCriticalService : Bool
  hasSpike : Bool
deriving DecidableEq, Repr

/-- Model of `scoreEvent(event, {currentRate, baselineRate})`:
`finalScore = min(round(base * serviceMul * freqMul), 100)`. -/
def scoreEvent (e : SEvent) (currentRate baselineRate : ℚ) : ScoreEventResult :=
  let base := getBaseScore e.severity
  let sm := getServiceMultiplier e.service
  let fm := getFrequencyMultiplier currentRate baselineRate
  { baseScore := base
    serviceMultiplier := sm
    frequencyMultiplier := fm.1
    frequencyLevel := fm.2
    finalScore := min (round (base * sm * fm.1)) 100
    isCriticalService := decide (1 < sm)
    hasSpike := decide (1 < fm.1) }

/-- The per-service spike context `{currentCount, mean}` consumed by
`scoreIncident`. -/
structure SpikeCtx where
  currentCount : ℚ
  mean : ℚ
deriving DecidableEq, Repr

/-- Model of `getSeverityLevel(score)`: composite score to level 1..5. -/
def getSeverityLevel (score : ℤ) : Nat :=
  if 90 ≤ score then 5
  else if 75 ≤ score then 4
  else if 50 ≤ score then 3
  else if 25 ≤ score then 2
  else 1

/-- Model of `getClassification(score)` against `incidentThresholds`
(critical 90, high 75, medium 50). -/
def getClassification (score : ℤ) : String :=
  if 90 ≤ score then "critical"
  else if 75 ≤ score then "high"
  else if 50 ≤ score then "medium"
  else "low"

/-- JS `Math.max(...xs)` over a nonempty number list (the scorer only calls
it on nonempty lists). -/
def maxInt : List ℤ → ℤ
  | [] => 0
  | x :: xs => xs.foldl max x

/-- JS `Math.max(...xs)` over a nonempty rational list. -/
def maxQ : List ℚ → ℚ
  | [] => 0
  | x :: xs => xs.foldl max x

/-- The `levels` array of `getMaxSpikeLevel`. -/
def spikeLevels : List String := ["normal", "elevated", "high", "critical"]

/-- JS `Array.prototype.indexOf`: `-1` when the element is absent. -/
def jsIndexOf (l : List String) (s : String) : ℤ :=
  let i := l.indexOf s
  if i = l.length then -1 else (i : ℤ)

/-- Model of `getMaxSpikeLevel(eventScores)`: the highest `frequencyLevel` in the
`spikeLevels` order. -/
def getMaxSpikeLevel (eventScores : List ScoreEventResult) : String :=
  let maxIndex := eventScores.foldl (fun mi sc =>
    let i := jsIndexOf spikeLevels sc.frequencyLevel
    if mi < i then i else mi) 0
  spikeLevels.getD maxIndex.toNat ""

/-- Model of `countFactor = min(1 + log10(n) * 0.2, 1.5)`.  `Math.log10` is a float
routine; it is passed in as an oracle so the scorer stays executable. -/
def countFactorOf (log10 : Nat → ℚ) (n : Nat) : ℚ :=
  min (1 + log10 n * (2/10)) (3/2)

/-- Model of `compositeScore = min(round((max * 0.6 + avg * 0.4) * countFactor), 100)`
over the per-event final scores. -/
def compositeScoreOf (log10 : Nat → ℚ) (scores : List ℤ) (n : Nat) : ℤ :=
  min (round (((maxInt scores : ℚ) * (6/10) +
    ((scores.sum : ℤ) : ℚ) / (scores.length : ℚ) * (4/10)) *
      countFactorOf log10 n)) 100

/-- The object returned by `scoreIncident`; the `factors` sub-object and the
per-score extras are absent (`none`) in the empty-input early return. -/
structure IncidentScore where
  compositeScore : ℤ
  severityLevel : Nat
  classification : String
  eventCount : Nat
  maxEventScore : Option ℤ
  avgEventScore : Option ℤ
  countFactor : Option ℚ
  affectedServices : Option (List String)
  criticalServicesAffected : Option (List String)
  hasSpike : Option Bool
  maxSpikeLevel : Option String
  highestSeverity : Option ℚ
deriving DecidableEq, Repr

/-- Model of `scoreIncident(events, {spikeData})`: empty input returns the
`{composite 0, level 1, low}` object; otherwise each event is scored with
its service's `{currentCount, mean}` spike context (absent entries give
rates 0) and the weighted composite is formed. -/
def scoreIncident (log10 : Nat → ℚ) (events : List SEvent)
    (spikeData : List (String × SpikeCtx)) : IncidentScore :=
  if events.isEmpty then
    { compositeScore := 0, severityLevel := 1, classification := "low",
      eventCount := 0, maxEventScore := none, avgEventScore := none,
      countFactor := none, affectedServices := none,
      criticalServicesAffected := none, hasSpike := none,
      maxSpikeLevel := none, highestSeverity := none }
  else
    let eventScores := events.map (fun e =>
      match spikeData.lookup e.service with
      | some s => scoreEvent e s.currentCount s.mean
      | none => scoreEvent e 0 0)
    let scores := eventScores.map (fun s => s.finalScore)
    let composite := compositeScoreOf log10 scores events.length
    { compositeScore := composite
      severityLevel := getSeverityLevel composite
      classification := getClassification composite
      eventCount := events.length
      maxEventScore := some (maxInt scores)
      avgEventScore := some (round (((scores.sum : ℤ) : ℚ) / (scores.length : ℚ)))
      countFactor := some (round2 (countFactorOf log10 events.length))
      affectedServices := some ((events.map (fun e => e.service)).eraseDups)
      criticalServicesAffected := some
        (((events.map (fun e => e.service)).eraseDups).filter
          (fun s => (criticalServiceMultiplier (toLowerStr s)).isSome))
      hasSpike := some (eventScores.any (fun s => s.frequencyLevel != "normal"))
      maxSpikeLevel := some (getMaxSpikeLevel eventScores)
      highestSeverity := some (maxQ (events.map (fun e => e.severity))) }

/- ### Spike detection statistics (`spikeDetection.js`) -/

/-- Model of `mean = counts.reduce((a, b) => a + b, 0) / counts.length`. -/
def meanOf (counts : List ℚ) : ℚ := counts.sum / counts.length

/-- Model of `variance = squaredDiffs.reduce((a, b) => a + b, 0) / counts.length`
(population variance). -/
def varianceOf (counts : List ℚ) : ℚ :=
  (counts.map (fun c => (c - meanOf counts) ^ 2)).sum / counts.length

/-- The statistics object built by `getServiceStats` (the fields the
anomaly test consumes). -/
structure ServiceStatsResult where
  mean : ℚ
  stdDev : ℚ
  dataPoints : Nat
  hasEnoughData : Bool
deriving DecidableEq, Repr

/-- Model of `getServiceStats` over the counts fetched for a service: zero rows give
the empty-stats object; otherwise mean and `sqrt(variance)` are computed
and reported rounded to two decimals.  `Math.sqrt` is a float routine and
is passed in as an oracle. -/
def computeServiceStats (sqrtQ : ℚ → ℚ) (minDataPoints : Nat)
    (counts : List ℚ) : ServiceStatsResult :=
  if counts.isEmpty then
    { mean := 0, stdDev := 0, dataPoints := 0, hasEnoughData := false }
  else
    { mean := round2 (meanOf counts)
      stdDev := round2 (sqrtQ (varianceOf counts))
      dataPoints := counts.length
      hasEnoughData := decide (minDataPoints ≤ counts.length) }

/-- The object returned by `isSpike` (the insufficient-data early return
leaves `spikeLevel`, `threshold` and `deviations` unset). -/
structure SpikeResult where
  isSpike : Bool
  spikeLevel : Option String
  reason : String
  currentCount : ℚ
  threshold : Option ℚ
  deviations : Option ℚ
  statsMean : ℚ
  statsStdDev : ℚ
  statsDataPoints : Nat
deriving DecidableEq, Repr

/-- The pure tail of `isSpike(service, currentCount)` applied to the stats
it fetched: `threshold = mean + stdDev * stdDevThreshold`, spike iff
`currentCount > threshold && stdDev > 0`, deviations in standard
deviations, and the `critical / high / elevated / normal` level ladder. -/
def isSpikeFromStats (stdDevThreshold : ℚ) (stats : ServiceStatsResult)
    (currentCount : ℚ) : SpikeResult :=
  if !stats.hasEnoughData then
    { isSpike := false, spikeLevel := none, reason := "insufficient_data",
      currentCount := currentCount, threshold := none, deviations := none,
      statsMean := stats.mean, statsStdDev := stats.stdDev,
      statsDataPoints := stats.dataPoints }
  else
    let threshold := stats.mean + stats.stdDev * stdDevThreshold
    let spike := decide (threshold < currentCount) && decide (0 < stats.stdDev)
    let deviations :=
      if 0 < stats.stdDev then (currentCount - stats.mean) / stats.stdDev else 0
    let spikeLevel :=
      if 4 ≤ deviations then "critical"
      else if 3 ≤ deviations then "high"
      else if 2 ≤ deviations then "elevated"
      else "normal"
    { isSpike := spike, spikeLevel := some spikeLevel
      reason := if spike then "threshold_exceeded" else "within_normal"
      currentCount := currentCount
      threshold := some (round2 threshold)
      deviations := some (round2 deviations)
      statsMean := stats.mean, statsStdDev := stats.stdDev
      statsDataPoints := stats.dataPoints }

/- ### AI retry loop (`aiService.js`, `callWithRetry` and `sleep`) -/

/-- The retry slice of `DEFAULT_CONFIG`: `maxRetries`, `baseDelay` (ms) and
`maxDelay` (ms). -/
structure RetryConfig where
  maxRetries : Nat
  baseDelay : ℚ
  maxDelay : ℚ
deriving DecidableEq, Repr

/-- Model of `DEFAULT_CONFIG`: 3 retries, base 1 s, cap 30 s. -/
def defaultRetryConfig : RetryConfig :=
  { maxRetries := 3, baseDelay := 1000, maxDelay := 30000 }

/-- The raw backoff of `sleep(attempt)`:
`min(baseDelay * 2^attempt, maxDelay)`. -/
def backoffDelay (cfg : RetryConfig) (k : Nat) : ℚ :=
  min (cfg.baseDelay * 2 ^ k) cfg.maxDelay

/-- The actual sleep duration: raw backoff plus the
`delay * 0.1 * Math.random()` jitter; the random draw `r ∈ [0, 1)` is a
parameter. -/
def sleepDelay (cfg : RetryConfig) (k : Nat) (r : ℚ) : ℚ :=
  backoffDelay cfg k + backoffDelay cfg k * (1/10) * r

/-- Outcome of one `makeRequest` attempt: resolved, or rejected with an
error that may carry an HTTP `statusCode`. -/
inductive AttemptOutcome where
  | ok
  | fail (statusCode : Option Nat)
deriving DecidableEq, Repr

/-- Result of `callWithRetry`: the resolved value's 1-based `attempt`
count, or the thrown error's status code and the number of attempts made;
both carry the trace of `sleep` exponents in order. -/
inductive RetryResult where
  | success (attempts : Nat) (sleeps : List Nat)
  | thrown (code : Option Nat) (attempts : Nat) (sleeps : List Nat)
deriving DecidableEq, Repr

/-- Attempts actually made. -/
def attemptsOf : RetryResult → Nat
  | .success a _ => a
  | .thrown _ a _ => a

/-- The `for (attempt = 0; attempt < maxRetries; attempt++)` loop of
`callWithRetry`, with the remaining iteration count as fuel: a success
returns `attempt + 1`; 401/403 rethrow immediately; 429 sleeps with
exponent `attempt + 2`; other failures sleep with exponent `attempt`
unless this was the last attempt; an exhausted loop throws `lastError`. -/
def callWithRetryAux (cfg : RetryConfig) (outcomes : Nat → AttemptOutcome) :
    Nat → Nat → List Nat → Option (Option Nat) → RetryResult
  | 0, attempt, sleeps, last => .thrown (last.getD none) attempt sleeps
  | r + 1, attempt, sleeps, _last =>
    match outcomes attempt with
    | .ok => .success (attempt + 1) sleeps
    | .fail c =>
      if c = some 401 ∨ c = some 403 then .thrown c (attempt + 1) sleeps
      else if c = some 429 then
        callWithRetryAux cfg outcomes r (attempt + 1) (sleeps ++ [attempt + 2]) (some c)
      else if attempt < cfg.maxRetries - 1 then
        callWithRetryAux cfg outcomes r (attempt + 1) (sleeps ++ [attempt]) (some c)
      else
        callWithRetryAux cfg outcomes r (attempt + 1) sleeps (some c)

/-- Model of `callWithRetry(messages)` against a fixed sequence of per-attempt
outcomes. -/
def callWithRetry (cfg : RetryConfig) (outcomes : Nat → AttemptOutcome) :
    RetryResult :=
  callWithRetryAux cfg outcomes cfg.maxRetries 0 [] none

/-- An outcome the loop retries past: a failure that is not 401/403. -/
def retryable (o : AttemptOutcome) : Prop :=
  ∃ c, o = .fail c ∧ ¬(c = some 401 ∨ c = some 403)

/-- The sleep-exponent trace accumulated over the first `k` (all
retryable) attempts: `j + 2` after a 429, otherwise `j` unless `j` was the
final attempt. -/
def sleepsUpTo (cfg : RetryConfig) (outcomes : Nat → AttemptOutcome)
    (k : Nat) : List Nat :=
  (List.range k).filterMap (fun j =>
    if outcomes j = .fail (some 429) then some (j + 2)
    else if j < cfg.maxRetries - 1 then some j
    else none)

/-- The `lastError` status after `k` attempts have failed. -/
def lastCode (outcomes : Nat → AttemptOutcome) (k : Nat) : Option (Option Nat) :=
  if k = 0 then none
  else match outcomes (k - 1) with
    | .fail c => some c
    | .ok => none

/- ### Incident PATCH controller (`updateIncident` in the incident
controller) -/

/-- An Incident document per the mongoose `incidentSchema` in the source
(the `models/Incident.js` module, concatenated into the routes file):
`summary` and `aiGeneratedSummary` are String paths defaulting to the
empty string; `rootCause` and `resolution` are String paths defaulting to
the empty string too, but the unvalidated PATCH body can still assign JS
`null` to them, so their runtime value space is `Option String` with
`some ""` the schema default; `assignedTo`, `acknowledgedAt` and
`resolvedAt` default to `null`; `timestamps: true` adds `createdAt` and
`updatedAt`.  There is no `suggestedActions` field. -/
structure IncidentDoc where
  incidentId : String
  eventIds : List Nat
  summary : String
  aiGeneratedSummary : String
  status : String
  severityScore : ℚ
  affectedServices : List String
  rootCause : Option String
  resolution : Option String
  assignedTo : Option String
  acknowledgedAt : Option Nat
  resolvedAt : Option Nat
  createdAt : Nat
  updatedAt : Nat
deriving DecidableEq, Repr

/-- The PATCH body `{status?, assignedTo?, resolution?, rootCause?}`: the
outer `Option` is presence in the body (`undefined` when absent), the
inner one is JS `null`. -/
structure IncidentPatch where
  status : Option String
  assignedTo : Option (Option String)
  resolution : Option (Option String)
  rootCause : Option (Option String)
deriving DecidableEq, Repr

/-- The `if (status)` block of the controller: a truthy `status` is copied,
and `status === 'resolved'` stamps `resolvedAt` when it is unset. -/
def applyStatus (inc : IncidentDoc) (ps : Option String) (now : Nat) :
    IncidentDoc :=
  match ps with
  | some s =>
      if s ≠ "" then
        let inc := { inc with status := s }
        if s = "resolved" ∧ inc.resolvedAt = none then
          { inc with resolvedAt := some now }
        else inc
      else inc
  | none => inc

/-- The `if (assignedTo !== undefined)` block: a present `assignedTo` is
copied (null included), and a truthy one stamps `acknowledgedAt` when it
is unset. -/
def applyAssignee (inc : IncidentDoc) (pa : Option (Option String))
    (now : Nat) : IncidentDoc :=
  match pa with
  | some v =>
      let inc := { inc with assignedTo := v }
      match v with
      | some name =>
          if name ≠ "" ∧ inc.acknowledgedAt = none then
            { inc with acknowledgedAt := some now }
          else inc
      | none => inc
  | none => inc

/-- The `if (resolution !== undefined)` block. -/
def applyResolution (inc : IncidentDoc) (pr : Option (Option String)) :
    IncidentDoc :=
  match pr with
  | some v => { inc with resolution := v }
  | none => inc

/-- The `if (rootCause !== undefined)` block. -/
def applyRootCause (inc : IncidentDoc) (pc : Option (Option String)) :
    IncidentDoc :=
  match pc with
  | some v => { inc with rootCause := v }
  | none => inc

/-- The field mutations of the `PATCH /incidents/:id` controller, in the
order the code performs them (everything before `incident.save()`). -/
def patchMutations (inc : IncidentDoc) (p : IncidentPatch)
    (now : Nat) : IncidentDoc :=
  applyRootCause
    (applyResolution
      (applyAssignee (applyStatus inc p.status now) p.assignedTo now)
      p.resolution)
    p.rootCause

/-- The schema validators `incident.save()` runs on the document: required
non-empty `incidentId`, the `status` enum
`['active', 'investigating', 'resolved']`, and `severityScore` within
`min 1`/`max 5`. -/
def incidentValidates (inc : IncidentDoc) : Bool :=
  inc.incidentId != "" &&
  (inc.status == "active" || inc.status == "investigating" ||
    inc.status == "resolved") &&
  decide (1 ≤ inc.severityScore) && decide (inc.severityScore ≤ 5)

/-- Model of `incident.save()`: a validation failure rejects (the
controller turns it into an error response and nothing is persisted);
success persists the document with `timestamps: true` bumping
`updatedAt`. -/
def saveIncident (inc : IncidentDoc) (now : Nat) : Option IncidentDoc :=
  if incidentValidates inc then some { inc with updatedAt := now } else none

/-- The `PATCH /incidents/:id` controller: apply the field mutations, then
`await incident.save()`; `none` is the validation-error path. -/
def updateIncidentHandler (inc : IncidentDoc) (p : IncidentPatch)
    (now : Nat) : Option IncidentDoc :=
  saveIncident (patchMutations inc p now) now

/- ### PII redactor (`piiRedactor.js`) -/

/-- Regular-expression syntax covering the redaction patterns: character
classes as predicates, sequencing, prioritized alternation, greedy `?` and
`*`, and the word-boundary assertion `\b`. -/
inductive Rx where
  | eps
  | cls (p : Char → Bool)
  | seq (a b : Rx)
  | alt (a b : Rx)
  | opt (a : Rx)
  | star (a : Rx)
  | wb

/-- A literal character. -/
def chr (c : Char) : Rx := .cls (fun d => d = c)

/-- A literal character under the `i` flag. -/
def chri (c : Char) : Rx := .cls (fun d => d.toLower = c.toLower)

/-- Sequence a list of regexes. -/
def rxCat : List Rx → Rx
  | [] => .eps
  | [r] => r
  | r :: rs => .seq r (rxCat rs)

/-- Alternation over a list, first alternative highest priority (the JS
`|` order). -/
def rxAlts : List Rx → Rx
  | [] => .eps
  | [r] => r
  | r :: rs => .alt r (rxAlts rs)

/-- A case-sensitive literal string. -/
def strRx (s : String) : Rx := rxCat (s.data.map chr)

/-- A case-insensitive literal string. -/
def strRxI (s : String) : Rx := rxCat (s.data.map chri)

/-- Model of `r{n}`. -/
def rxRep (r : Rx) (n : Nat) : Rx := rxCat (List.replicate n r)

/-- Model of `r?` repeated `n` times — the expansion of `r{0,n}` with greedy
priority. -/
def rxUpTo (r : Rx) (n : Nat) : Rx := rxCat (List.replicate n (.opt r))

/-- Model of `r+`. -/
def rxPlus (r : Rx) : Rx := .seq r (.star r)

/-- Model of `r{n,}`. -/
def rxAtLeast (r : Rx) (n : Nat) : Rx := .seq (rxRep r n) (.star r)

/-- Model of `lo-hi` character range. -/
def inRange (lo hi c : Char) : Bool := decide (lo ≤ c) && decide (c ≤ hi)

/-- JS `\d`. -/
def isDigitC (c : Char) : Bool := c.isDigit

/-- JS `\w` (`[A-Za-z0-9_]`). -/
def isWordC (c : Char) : Bool := c.isAlphanum || c = '_'

/-- JS `\s` on the ASCII whitespace the inputs here can contain. -/
def isSpaceC (c : Char) : Bool :=
  c = ' ' || c = '\t' || c = '\n' || c = '\r' || c = '\x0b' || c = '\x0c'

/-- ASCII letter. -/
def isAlphaC (c : Char) : Bool := c.isAlpha

/-- The `\b` test between the previously consumed character and the next
input character. -/
def isBoundary (prev : Option Char) (s : List Char) : Bool :=
  let a := match prev with | some c => isWordC c | none => false
  let b := match s with | c :: _ => isWordC c | [] => false
  a != b

/-- Backtracking matcher in continuation-passing style, mirroring a JS
regex engine's leftmost, priority-first search: alternation tries its left
branch first and `?`/`*` are greedy.  The continuation receives the last
consumed character (for `\b`) and the remaining input; `fuel` bounds the
recursion depth and is chosen large enough for the inputs evaluated
here. -/
def mtch (fuel : Nat) (r : Rx) (prev : Option Char) (s : List Char)
    (k : Option Char → List Char → Option (Option Char × List Char)) :
    Option (Option Char × List Char) :=
  match fuel with
  | 0 => none
  | fuel + 1 =>
    match r with
    | .eps => k prev s
    | .cls p =>
        match s with
        | [] => none
        | c :: rest => if p c then k (some c) rest else none
    | .seq a b => mtch fuel a prev s (fun p2 s2 => mtch fuel b p2 s2 k)
    | .alt a b => (mtch fuel a prev s k).orElse (fun _ => mtch fuel b prev s k)
    | .opt a => (mtch fuel a prev s k).orElse (fun _ => k prev s)
    | .star a =>
        (mtch fuel a prev s (fun p2 s2 => mtch fuel (.star a) p2 s2 k)).orElse
          (fun _ => k prev s)
    | .wb => if isBoundary prev s then k prev s else none

/-- Try a match starting exactly at the head of `s` (with `prev` the
character before it); returns the last matched character and the suffix
after the match. -/
def tryMatchAt (r : Rx) (prev : Option Char) (s : List Char) :
    Option (Option Char × List Char) :=
  mtch 1000 r prev s (fun p2 s2 => some (p2, s2))

/-- JS `String.prototype.replace` with a `/g` regex: scan left to right,
splice the replacement over each non-overlapping match, otherwise copy one
character and continue.  (The redaction patterns never match the empty
string; the length check keeps the function total regardless.) -/
def replAux (r : Rx) (repl : List Char) : Nat → Option Char → List Char → List Char
  | 0, _, s => s
  | fuel + 1, prev, s =>
    match tryMatchAt r prev s with
    | some (p2, s2) =>
        if s2.length = s.length then
          match s with
          | [] => repl
          | c :: rest => repl ++ replAux r repl fuel (some c) rest
        else repl ++ replAux r repl fuel p2 s2
    | none =>
        match s with
        | [] => []
        | c :: rest => c :: replAux r repl fuel (some c) rest

/-- JS `String.prototype.match` with a `/g` regex: the number of
non-overlapping matches. -/
def countAux (r : Rx) : Nat → Option Char → List Char → Nat
  | 0, _, _ => 0
  | fuel + 1, prev, s =>
    match tryMatchAt r prev s with
    | some (p2, s2) =>
        if s2.length = s.length then
          match s with
          | [] => 1
          | _ :: rest => 1 + countAux r fuel (some (s.headD ' ')) rest
        else 1 + countAux r fuel p2 s2
    | none =>
        match s with
        | [] => 0
        | c :: rest => countAux r fuel (some c) rest

/-- All matches of `r` in `s`, counted. -/
def jsMatchCount (r : Rx) (s : List Char) : Nat :=
  countAux r (s.length + 1) none s

/-- Model of `s.replace(r, repl)` for a `/g` regex `r`. -/
def jsReplaceAll (r : Rx) (repl : String) (s : List Char) : List Char :=
  replAux r repl.data (s.length + 1) none s

/-- Model of `patterns.email`: `\b[A-Za-z0-9._%+-]+@[A-Za-z0-9.-]+\.[A-Z|a-z]{2,}\b`. -/
def emailRx : Rx :=
  rxCat [.wb,
    rxPlus (.cls (fun c => c.isAlphanum || c = '.' || c = '_' || c = '%' ||
      c = '+' || c = '-')),
    chr '@',
    rxPlus (.cls (fun c => c.isAlphanum || c = '.' || c = '-')),
    chr '.',
    rxAtLeast (.cls (fun c => isAlphaC c || c = '|')) 2,
    .wb]

/-- One octet of `patterns.ipv4`: `25[0-5]|2[0-4][0-9]|[01]?[0-9][0-9]?`. -/
def ipv4Octet : Rx :=
  rxAlts [
    rxCat [chr '2', chr '5', .cls (inRange '0' '5')],
    rxCat [chr '2', .cls (inRange '0' '4'), .cls isDigitC],
    rxCat [.opt (.cls (fun c => c = '0' || c = '1')), .cls isDigitC,
      .opt (.cls isDigitC)]]

/-- Model of `patterns.ipv4`: `\b(?:(?:25[0-5]|2[0-4][0-9]|[01]?[0-9][0-9]?)\.){3}
(?:25[0-5]|2[0-4][0-9]|[01]?[0-9][0-9]?)\b`. -/
def ipv4Rx : Rx :=
  rxCat [.wb, rxRep (rxCat [ipv4Octet, chr '.']) 3, ipv4Octet, .wb]

/-- Hex component `[0-9a-fA-F]{1,4}` of `patterns.ipv6`. -/
def hex14 : Rx :=
  .seq (.cls (fun c => c.isDigit || inRange 'a' 'f' c || inRange 'A' 'F' c))
    (rxUpTo (.cls (fun c => c.isDigit || inRange 'a' 'f' c || inRange 'A' 'F' c)) 3)

/-- Model of `patterns.ipv6`: `\b(?:[0-9a-fA-F]{1,4}:){7}[0-9a-fA-F]{1,4}\b`. -/
def ipv6Rx : Rx :=
  rxCat [.wb, rxRep (.seq hex14 (chr ':')) 7, hex14, .wb]

/-- Model of `[-.\s]` of `patterns.phone`. -/
def phoneSepC (c : Char) : Bool := c = '-' || c = '.' || isSpaceC c

/-- Model of `patterns.phone`:
`\b(?:\+?1[-.\s]?)?(?:\(?\d{3}\)?[-.\s]?)?\d{3}[-.\s]?\d{4}\b`. -/
def phoneRx : Rx :=
  rxCat [.wb,
    .opt (rxCat [.opt (chr '+'), chr '1', .opt (.cls phoneSepC)]),
    .opt (rxCat [.opt (chr '('), rxRep (.cls isDigitC) 3, .opt (chr ')'),
      .opt (.cls phoneSepC)]),
    rxRep (.cls isDigitC) 3, .opt (.cls phoneSepC),
    rxRep (.cls isDigitC) 4, .wb]

/-- Model of `[-\s]` of `patterns.ssn` and `patterns.creditCard`. -/
def dashSpaceC (c : Char) : Bool := c = '-' || isSpaceC c

/-- Model of `patterns.ssn`: `\b\d{3}[-\s]?\d{2}[-\s]?\d{4}\b`. -/
def ssnRx : Rx :=
  rxCat [.wb, rxRep (.cls isDigitC) 3, .opt (.cls dashSpaceC),
    rxRep (.cls isDigitC) 2, .opt (.cls dashSpaceC),
    rxRep (.cls isDigitC) 4, .wb]

/-- Model of `patterns.creditCard`: `\b(?:\d{4}[-\s]?){3}\d{4}\b`. -/
def creditCardRx : Rx :=
  rxCat [.wb, rxRep (rxCat [rxRep (.cls isDigitC) 4, .opt (.cls dashSpaceC)]) 3,
    rxRep (.cls isDigitC) 4, .wb]

/-- Model of `patterns.awsKey`: `\b(?:AKIA|ABIA|ACCA|ASIA)[0-9A-Z]{16}\b`. -/
def awsKeyRx : Rx :=
  rxCat [.wb,
    rxAlts [strRx "AKIA", strRx "ABIA", strRx "ACCA", strRx "ASIA"],
    rxRep (.cls (fun c => c.isDigit || c.isUpper)) 16, .wb]

/-- Model of `['":\s]` of the `apiKey` / `namedValues` patterns. -/
def quoteColonSpaceC (c : Char) : Bool :=
  c = '\'' || c = '"' || c = ':' || isSpaceC c

/-- Model of `['"]`. -/
def quoteC (c : Char) : Bool := c = '\'' || c = '"'

/-- Model of `[a-zA-Z0-9_-]`. -/
def valueC (c : Char) : Bool := c.isAlphanum || c = '_' || c = '-'

/-- Model of `patterns.apiKey` (with the `i` flag):
`\b(?:api[_-]?key|apikey|token|secret)['":\s]*[=:]\s*['"]?([a-zA-Z0-9_-]{20,})['"]?`. -/
def apiKeyRx : Rx :=
  rxCat [.wb,
    rxAlts [rxCat [strRxI "api", .opt (.cls (fun c => c = '_' || c = '-')),
        strRxI "key"],
      strRxI "apikey", strRxI "token", strRxI "secret"],
    .star (.cls quoteColonSpaceC), .cls (fun c => c = '=' || c = ':'),
    .star (.cls isSpaceC), .opt (.cls quoteC),
    rxAtLeast (.cls valueC) 20, .opt (.cls quoteC)]

/-- Model of `patterns.bearerToken`:
`Bearer\s+[a-zA-Z0-9_-]+\.[a-zA-Z0-9_-]+\.[a-zA-Z0-9_-]+`. -/
def bearerTokenRx : Rx :=
  rxCat [strRx "Bearer", rxPlus (.cls isSpaceC), rxPlus (.cls valueC),
    chr '.', rxPlus (.cls valueC), chr '.', rxPlus (.cls valueC)]

/-- Model of `patterns.jwt`: `\beyJ[a-zA-Z0-9_-]*\.eyJ[a-zA-Z0-9_-]*\.[a-zA-Z0-9_-]*`. -/
def jwtRx : Rx :=
  rxCat [.wb, strRx "eyJ", .star (.cls valueC), chr '.', strRx "eyJ",
    .star (.cls valueC), chr '.', .star (.cls valueC)]

/-- Model of `patterns.namedValues` (with the `i` flag, under which `[A-Z]` and
`[a-z]` both match any letter):
`\b(?:name|user|username|author|owner|assigned)['":\s]*[=:]\s*['"]?([A-Z][a-z]+(?:\s+[A-Z][a-z]+)?)['"]?`. -/
def namedValuesRx : Rx :=
  rxCat [.wb,
    rxAlts [strRxI "name", strRxI "user", strRxI "username", strRxI "author",
      strRxI "owner", strRxI "assigned"],
    .star (.cls quoteColonSpaceC), .cls (fun c => c = '=' || c = ':'),
    .star (.cls isSpaceC), .opt (.cls quoteC),
    .cls isAlphaC, rxPlus (.cls isAlphaC),
    .opt (rxCat [rxPlus (.cls isSpaceC), .cls isAlphaC, rxPlus (.cls isAlphaC)]),
    .opt (.cls quoteC)]

/-- The ordered `patterns` object with each pattern's `replacements`
placeholder. -/
def redactorPatterns : List (String × Rx × String) :=
  [("email", emailRx, "[REDACTED_EMAIL]"),
   ("ipv4", ipv4Rx, "[REDACTED_IP]"),
   ("ipv6", ipv6Rx, "[REDACTED_IPV6]"),
   ("phone", phoneRx, "[REDACTED_PHONE]"),
   ("ssn", ssnRx, "[REDACTED_SSN]"),
   ("creditCard", creditCardRx, "[REDACTED_CC]"),
   ("awsKey", awsKeyRx, "[REDACTED_AWS_KEY]"),
   ("apiKey", apiKeyRx, "[REDACTED_API_KEY]"),
   ("bearerToken", bearerTokenRx, "[REDACTED_TOKEN]"),
   ("jwt", jwtRx, "[REDACTED_JWT]"),
   ("namedValues", namedValuesRx, "[REDACTED_NAME]")]

/-- The object returned by `redactString`. -/
structure RedactResult where
  text : String
  redactions : List (String × Nat)
  hasRedactions : Bool

/-- Model of `redactString(text)`: apply each pattern in declared order to the
evolving text, tallying match counts for patterns that fired. -/
def redactString (text : String) : RedactResult :=
  let final := redactorPatterns.foldl (fun acc pat =>
    let cnt := jsMatchCount pat.2.1 acc.1.data
    if 0 < cnt then
      (String.mk (jsReplaceAll pat.2.1 pat.2.2 acc.1.data),
       acc.2 ++ [(pat.1, cnt)])
    else acc) (text, [])
  { text := final.1, redactions := final.2,
    hasRedactions := decide (final.2 ≠ []) }

/-- A concrete unacknowledged, unresolved incident document, with the
string paths at their schema defaults. -/
def sampleIncident : IncidentDoc :=
  { incidentId := "inc_1"
    eventIds := [1, 2]
    summary := "2 DeadlockDetected events from payment-service"
    aiGeneratedSummary := ""
    status := "active"
    severityScore := 3
    affectedServices := ["payment-service"]
    rootCause := some ""
    resolution := some ""
    assignedTo := none
    acknowledgedAt := none
    resolvedAt := none
    createdAt := 100
    updatedAt := 100 }

/- ### Aggregation worker (`aggregationWorker.js` with the spike detector's
store operations from `spikeDetection.js`) -/

/-- An Event document as the aggregation worker sees it.  `oid` models the
Mongo `_id`; `incidentId` is the nullable back-reference the worker
assigns. -/
structure AEvent where
  oid : Nat
  service : String
  severity : Nat
  timestamp : Nat
  metadata : List (String × String)
  incidentId : Option Nat
deriving DecidableEq, Repr

/-- An Incident document with the fields the aggregation worker reads and
writes.  `oid` models the Mongo `_id` that events back-reference. -/
structure AIncident where
  oid : Nat
  incidentId : String
  eventIds : List Nat
  summary : String
  status : String
  severityScore : Nat
  affectedServices : List String
  createdAt : Nat
deriving DecidableEq, Repr

/-- A `ServiceStats` row: unique on `(service, windowKey)`. -/
structure SStat where
  service : String
  windowKey : String
  count : ℚ
  timestamp : Nat
deriving DecidableEq, Repr

/-- The spike detector's configuration (`windowSize` 5 min,
`historyWindows` 12, `stdDevThreshold` 2.0, `minDataPoints` 3). -/
structure SpikeConfig where
  windowSize : Nat
  historyWindows : Nat
  stdDevThreshold : ℚ
  minDataPoints : Nat
deriving DecidableEq, Repr

/-- Model of `getWindowKey`: `"w_" + floor(now / windowSize) * windowSize`. -/
def getWindowKey (cfg : SpikeConfig) (now : Nat) : String :=
  "w_" ++ toString (now / cfg.windowSize * cfg.windowSize)

/-- Model of `recordCount(service, count)`: upsert on `(service, windowKey)` with
`$inc count` and a touched `timestamp`. -/
def recordCount (cfg : SpikeConfig) (now : Nat) (stats : List SStat)
    (service : String) (count : ℚ) : List SStat :=
  let wk := getWindowKey cfg now
  if stats.any (fun r => r.service == service && r.windowKey == wk) then
    stats.map (fun r =>
      if r.service == service && r.windowKey == wk then
        { r with count := r.count + count, timestamp := now }
      else r)
  else
    stats ++ [{ service := service, windowKey := wk, count := count,
                timestamp := now }]

/-- Model of `recordCounts(serviceCounts)`: one upsert per service (the JS code
issues them through `Promise.all`; the services are distinct keys, so the
sequential order here is immaterial). -/
def recordCounts (cfg : SpikeConfig) (now : Nat) (stats : List SStat)
    (serviceCounts : List (String × Nat)) : List SStat :=
  serviceCounts.foldl (fun st p => recordCount cfg now st p.1 (p.2 : ℚ)) stats

/-- Stable insertion of `e` into a list sorted descending by `key`
(Mongo `.sort(field: -1)` semantics). -/
def insertByKeyDesc (key : α → Nat) (e : α) : List α → List α
  | [] => [e]
  | x :: xs =>
      if key x ≤ key e then e :: x :: xs else x :: insertByKeyDesc key e xs

/-- Stable sort descending by `key`. -/
def sortByKeyDesc (key : α → Nat) (l : List α) : List α :=
  l.foldr (insertByKeyDesc key) []

/-- The store query of `getServiceStats`: rows for the service no older
than `windowSize * historyWindows`, newest first, projected to counts. -/
def fetchCounts (cfg : SpikeConfig) (now : Nat) (stats : List SStat)
    (service : String) : List ℚ :=
  (sortByKeyDesc (fun r => r.timestamp)
    (stats.filter (fun r => r.service == service &&
      decide (now - cfg.windowSize * cfg.historyWindows ≤ r.timestamp)))).map
    (fun r => r.count)

/-- Model of `isSpike(service, currentCount)` against the persisted rows. -/
def isSpikeSvc (cfg : SpikeConfig) (sqrtQ : ℚ → ℚ) (now : Nat)
    (stats : List SStat) (service : String) (currentCount : ℚ) : SpikeResult :=
  isSpikeFromStats cfg.stdDevThreshold
    (computeServiceStats sqrtQ cfg.minDataPoints (fetchCounts cfg now stats service))
    currentCount

/-- Model of `checkSpikes(serviceCounts)`. -/
def checkSpikes (cfg : SpikeConfig) (sqrtQ : ℚ → ℚ) (now : Nat)
    (stats : List SStat) (serviceCounts : List (String × Nat)) :
    List (String × SpikeResult) :=
  serviceCounts.map (fun p => (p.1, isSpikeSvc cfg sqrtQ now stats p.1 (p.2 : ℚ)))

/-- Model of `extractErrorType(event)`: the first truthy of the metadata keys
`errorType`, `error_type`, `type`, `category`, `errorCode`, `error_code`,
else the synthetic `severity_<n>`. -/
def extractErrorType (e : AEvent) : String :=
  jsOrStr (e.metadata.lookup "errorType")
    (jsOrStr (e.metadata.lookup "error_type")
      (jsOrStr (e.metadata.lookup "type")
        (jsOrStr (e.metadata.lookup "category")
          (jsOrStr (e.metadata.lookup "errorCode")
            (jsOrStr (e.metadata.lookup "error_code")
              ("severity_" ++ toString e.severity))))))

/-- One cluster of `clusterEvents`. -/
structure Cluster where
  key : String
  service : String
  errorType : String
  events : List AEvent
  severities : List Nat
deriving DecidableEq, Repr

/-- Insert an event into the cluster map (JS `Map` preserves first-insert
key order; events are appended to their cluster). -/
def addToClusters (acc : List Cluster) (e : AEvent) : List Cluster :=
  let errorType := extractErrorType e
  let key := e.service ++ ":" ++ errorType
  if acc.any (fun c => c.key == key) then
    acc.map (fun c =>
      if c.key == key then
        { c with events := c.events ++ [e],
                 severities := c.severities ++ [e.severity] }
      else c)
  else
    acc ++ [{ key := key, service := e.service, errorType := errorType,
              events := [e], severities := [e.severity] }]

/-- Model of `clusterEvents(events)`: bucket by `service:errorType`. -/
def clusterEvents (events : List AEvent) : List Cluster :=
  events.foldl addToClusters []

/-- Model of `countByService(events)` (JS object keys in insertion order). -/
def countByService (events : List AEvent) : List (String × Nat) :=
  events.foldl (fun acc e =>
    if acc.any (fun p => p.1 == e.service) then
      acc.map (fun p => if p.1 == e.service then (p.1, p.2 + 1) else p)
    else acc ++ [(e.service, 1)]) []

/-- ASCII upper-casing (`String.prototype.toUpperCase`). -/
def toUpperStr (s : String) : String := String.mk (s.data.map Char.toUpper)

/-- Decimal rendering of the two-decimal rationals produced by `round2`,
as JS number-to-string prints them inside template literals. -/
def ratToString (q : ℚ) : String :=
  let sign := if q < 0 then "-" else ""
  let n : Nat := (round (|q| * 100)).toNat
  let ip := n / 100
  let cents := n % 100
  if cents = 0 then sign ++ toString ip
  else if cents % 10 = 0 then sign ++ toString ip ++ "." ++ toString (cents / 10)
  else if cents < 10 then sign ++ toString ip ++ ".0" ++ toString cents
  else sign ++ toString ip ++ "." ++ toString cents

/-- Smallest timestamp (`Math.min` over a nonempty spread). -/
def minNat : List Nat → Nat
  | [] => 0
  | x :: xs => xs.foldl min x

/-- Largest timestamp. -/
def maxNat : List Nat → Nat
  | [] => 0
  | x :: xs => xs.foldl max x

/-- Model of `generateSummary(cluster, scoring, spikeData)`: the deterministic
textual summary, `". "`-joined.  (`spikeData.deviations` is only rendered
when `isSpike` is set, in which case the field is present.) -/
def generateSummary (cluster : Cluster) (scoring : IncidentScore)
    (spike : Option SpikeResult) : String :=
  let parts := [toString cluster.events.length ++ " " ++ cluster.errorType ++
      " events from " ++ cluster.service,
    "Severity: " ++ toUpperStr scoring.classification]
  let parts := parts ++
    (if (spike.map (fun r => r.isSpike)).getD false then
      ["Spike detected: " ++
        ratToString ((spike.bind (fun r => r.deviations)).getD 0) ++
        "σ above normal"]
    else [])
  let ts := cluster.events.map (fun e => e.timestamp)
  let durationMins := round (((maxNat ts - minNat ts : Nat) : ℚ) / 60000)
  let parts := parts ++
    (if 0 < durationMins then
      ["Duration: " ++ toString durationMins.toNat ++ " minutes"]
    else [])
  String.intercalate ". " parts

/-- Model of `Event.updateMany(_id in ids, $set incidentId)`. -/
def assignIncident (events : List AEvent) (ids : List Nat) (incOid : Nat) :
    List AEvent :=
  events.map (fun e =>
    if ids.contains e.oid then { e with incidentId := some incOid } else e)

/-- The ids `updateIncident` pushes: cluster events whose `_id` the
incident does not already reference. -/
def newEventIds (inc : AIncident) (cluster : Cluster) : List Nat :=
  (cluster.events.filter (fun e => !(inc.eventIds.contains e.oid))).map
    (fun e => e.oid)

/-- Project an event for the severity scorer. -/
def toSEvent (e : AEvent) : SEvent := { service := e.service, severity := (e.severity : ℚ) }

/-- The spike context `scoreIncident` actually receives from the worker:
each `isSpike` result has `currentCount` but no top-level `mean` field, so
the JS property read yields `undefined` and `|| 0` makes the baseline 0. -/
def spikeCtxOf (spikeData : List (String × SpikeResult)) :
    List (String × SpikeCtx) :=
  spikeData.map (fun p => (p.1, { currentCount := p.2.currentCount, mean := 0 }))

/-- The mutable state the worker operates on: the three stores, a fresh-id
supply standing in for ObjectId/uuid generation, and the worker's own
counters. -/
structure RunState where
  events : List AEvent
  incidents : List AIncident
  stats : List SStat
  nextOid : Nat
  runs : Nat
  eventsProcessed : Nat
  incidentsCreated : Nat
  incidentsUpdated : Nat
deriving DecidableEq, Repr

/-- Model of `createIncident(cluster, scoring, spikeData)`: a fresh incident over
the cluster's events, then one `updateMany` back-linking them. -/
def createIncidentStep (st : RunState) (now : Nat) (cluster : Cluster)
    (scoring : IncidentScore) (serviceSpike : Option SpikeResult) : RunState :=
  let oid := st.nextOid
  let eventIds := cluster.events.map (fun e => e.oid)
  let incident : AIncident :=
    { oid := oid
      incidentId := "inc_" ++ toString oid
      eventIds := eventIds
      summary := generateSummary cluster scoring serviceSpike
      status := "active"
      severityScore := scoring.severityLevel
      affectedServices := [cluster.service]
      createdAt := now }
  { st with
    incidents := st.incidents ++ [incident]
    events := assignIncident st.events eventIds oid
    nextOid := oid + 1
    incidentsCreated := st.incidentsCreated + 1 }

/-- Model of `updateIncident(incident, cluster, scoring, spikeData)`: no-op when
every cluster event is already referenced; otherwise append the new ids,
raise `severityScore` monotonically, regenerate the summary, extend
`affectedServices`, save, and back-link the new events. -/
def updateIncidentStep (st : RunState) (_now : Nat) (inc : AIncident)
    (cluster : Cluster) (scoring : IncidentScore)
    (serviceSpike : Option SpikeResult) : RunState :=
  let newIds := newEventIds inc cluster
  if newIds.isEmpty then st
  else
    let inc2 :=
      { inc with
        eventIds := inc.eventIds ++ newIds
        severityScore := max inc.severityScore scoring.severityLevel
        summary := generateSummary cluster scoring serviceSpike
        affectedServices :=
          if inc.affectedServices.contains cluster.service then
            inc.affectedServices
          else inc.affectedServices ++ [cluster.service] }
    { st with
      incidents := st.incidents.map (fun j => if j.oid == inc.oid then inc2 else j)
      events := assignIncident st.events newIds inc.oid
      incidentsUpdated := st.incidentsUpdated + 1 }

/-- The `Incident.findOne` of `processCluster`: an active or investigating
incident for this service created within the last `2 * windowSize`. -/
def findExistingIncident (incidents : List AIncident) (service : String)
    (now windowSize : Nat) : Option AIncident :=
  incidents.find? (fun i =>
    i.affectedServices.contains service &&
    (i.status == "active" || i.status == "investigating") &&
    decide (now - windowSize * 2 ≤ i.createdAt))

/-- Model of `processCluster(cluster, spikeData)`: score, look up an extension
candidate, and create or update. -/
def processCluster (log10 : Nat → ℚ) (windowSize now : Nat)
    (spikeData : List (String × SpikeResult)) (st : RunState)
    (cluster : Cluster) : RunState :=
  let scoring := scoreIncident log10 (cluster.events.map toSEvent)
    (spikeCtxOf spikeData)
  let serviceSpike := spikeData.lookup cluster.service
  match findExistingIncident st.incidents cluster.service now windowSize with
  | some inc => updateIncidentStep st now inc cluster scoring serviceSpike
  | none => createIncidentStep st now cluster scoring serviceSpike

/-- Model of `getRecentEvents()`: events of the last `windowSize` with a null
`incidentId`, newest first. -/
def getRecentEvents (windowSize now : Nat) (events : List AEvent) :
    List AEvent :=
  sortByKeyDesc (fun e => e.timestamp)
    (events.filter (fun e =>
      decide (now - windowSize ≤ e.timestamp) && e.incidentId.isNone))

/-- One aggregation `run()`: query, count, record, check spikes, cluster,
process each cluster, and every 10th run prune stats older than
`2 * windowSize * historyWindows`. -/
def runAggregation (scfg : SpikeConfig) (windowSize : Nat) (sqrtQ : ℚ → ℚ)
    (log10 : Nat → ℚ) (now : Nat) (st : RunState) : RunState :=
  let events := getRecentEvents windowSize now st.events
  if events.isEmpty then { st with runs := st.runs + 1 }
  else
    let serviceCounts := countByService events
    let st1 := { st with stats := recordCounts scfg now st.stats serviceCounts }
    let spikeData := checkSpikes scfg sqrtQ now st1.stats serviceCounts
    let clusters := clusterEvents events
    let st2 := clusters.foldl (processCluster log10 windowSize now spikeData) st1
    let st3 :=
      if st2.runs % 10 == 0 then
        { st2 with stats := st2.stats.filter (fun r =>
            decide (now - scfg.windowSize * scfg.historyWindows * 2 ≤ r.timestamp)) }
      else st2
    { st3 with
      runs := st3.runs + 1
      eventsProcessed := st3.eventsProcessed + events.length }

end IncidentCore

namespace IncidentCore

lemma recordFailure_closed_lt (c : CircuitBreaker) (t : Nat)
    (h1 : c.state = .closed) (hcond : ¬ c.failureThreshold ≤ c.failures + 1) :
    recordFailure c t =
      { c with
        failures := c.failures + 1
        lastFailureTime := some t
        totalCalls := c.totalCalls + 1
        failedCalls := c.failedCalls + 1 } := by
  simp only [recordFailure, h1]
  rw [if_neg hcond]

lemma recordFailure_closed_ge (c : CircuitBreaker) (t : Nat)
    (h1 : c.state = .closed) (hcond : c.failureThreshold ≤ c.failures + 1) :
    recordFailure c t =
      transitionTo
        { c with
          failures := c.failures + 1
          lastFailureTime := some t
          totalCalls := c.totalCalls + 1
          failedCalls := c.failedCalls + 1 } .opened t := by
  simp only [recordFailure, h1]
  rw [if_pos hcond]

lemma recordSuccess_halfOpen_lt (c : CircuitBreaker) (t : Nat)
    (h1 : c.state = .halfOpen) (hcond : ¬ c.successThreshold ≤ c.successes + 1) :
    recordSuccess c t =
      { c with
        successes := c.successes + 1
        totalCalls := c.totalCalls + 1
        successfulCalls := c.successfulCalls + 1 } := by
  simp only [recordSuccess, h1]
  rw [if_neg hcond]

lemma recordSuccess_halfOpen_ge (c : CircuitBreaker) (t : Nat)
    (h1 : c.state = .halfOpen) (hcond : c.successThreshold ≤ c.successes + 1) :
    recordSuccess c t =
      transitionTo
        { c with
          successes := c.successes + 1
          totalCalls := c.totalCalls + 1
          successfulCalls := c.successfulCalls + 1 } .closed t := by
  simp only [recordSuccess, h1]
  rw [if_pos hcond]

lemma iterFail_closed (cb : CircuitBreaker) (t : Nat)
    (hs : cb.state = .closed) (hf : cb.failures = 0) :
    ∀ k, k < cb.failureThreshold →
      (applyN (fun c => recordFailure c t) k cb).state = .closed ∧
      (applyN (fun c => recordFailure c t) k cb).failures = k ∧
      (applyN (fun c => recordFailure c t) k cb).failureThreshold = cb.failureThreshold ∧
      (applyN (fun c => recordFailure c t) k cb).successThreshold = cb.successThreshold ∧
      (applyN (fun c => recordFailure c t) k cb).timeout = cb.timeout := by
  intro k
  induction k with
  | zero => intro _; exact ⟨hs, hf, rfl, rfl, rfl⟩
  | succ n ih =>
      intro hlt
      obtain ⟨h1, h2, h3, h4, h5⟩ := ih (Nat.lt_of_succ_lt hlt)
      have hcond : ¬ (applyN (fun c => recordFailure c t) n cb).failureThreshold ≤
          (applyN (fun c => recordFailure c t) n cb).failures + 1 := by
        rw [h2, h3]; omega
      have heq : applyN (fun c => recordFailure c t) (n + 1) cb =
          recordFailure (applyN (fun c => recordFailure c t) n cb) t := rfl
      rw [heq, recordFailure_closed_lt _ t h1 hcond]
      simp [h1, h2, h3, h4, h5]

lemma afterFailures_opened (cb : CircuitBreaker) (t : Nat)
    (hs : cb.state = .closed) (hf : cb.failures = 0)
    (hft : 1 ≤ cb.failureThreshold) :
    (afterFailures cb t).state = .opened ∧
    (afterFailures cb t).nextAttempt = some (t + cb.timeout) ∧
    (afterFailures cb t).successThreshold = cb.successThreshold ∧
    (afterFailures cb t).successes = 0 := by
  obtain ⟨n, hn⟩ : ∃ n, cb.failureThreshold = n + 1 :=
    ⟨cb.failureThreshold - 1, by omega⟩
  unfold afterFailures
  rw [hn]
  obtain ⟨h1, h2, h3, h4, h5⟩ := iterFail_closed cb t hs hf n (by omega)
  have hcond : (applyN (fun c => recordFailure c t) n cb).failureThreshold ≤
      (applyN (fun c => recordFailure c t) n cb).failures + 1 := by
    rw [h2, h3]; omega
  have heq : applyN (fun c => recordFailure c t) (n + 1) cb =
      recordFailure (applyN (fun c => recordFailure c t) n cb) t := rfl
  rw [heq, recordFailure_closed_ge _ t h1 hcond]
  simp [transitionTo, h4, h5, Nat.add_comm]

lemma iterSucc_halfOpen (cb : CircuitBreaker) (t : Nat)
    (hs : cb.state = .halfOpen) (h0 : cb.successes = 0) :
    ∀ k, k < cb.successThreshold →
      (applyN (fun c => recordSuccess c t) k cb).state = .halfOpen ∧
      (applyN (fun c => recordSuccess c t) k cb).successes = k ∧
      (applyN (fun c => recordSuccess c t) k cb).successThreshold = cb.successThreshold := by
  intro k
  induction k with
  | zero => intro _; exact ⟨hs, h0, rfl⟩
  | succ n ih =>
      intro hlt
      obtain ⟨h1, h2, h3⟩ := ih (Nat.lt_of_succ_lt hlt)
      have hcond : ¬ (applyN (fun c => recordSuccess c t) n cb).successThreshold ≤
          (applyN (fun c => recordSuccess c t) n cb).successes + 1 := by
        rw [h2, h3]; omega
      have heq : applyN (fun c => recordSuccess c t) (n + 1) cb =
          recordSuccess (applyN (fun c => recordSuccess c t) n cb) t := rfl
      rw [heq, recordSuccess_halfOpen_lt _ t h1 hcond]
      simp [h1, h2, h3]

lemma iterSucc_closes (cb : CircuitBreaker) (t : Nat)
    (hs : cb.state = .halfOpen) (h0 : cb.successes = 0)
    (hst : 1 ≤ cb.successThreshold) :
    (applyN (fun c => recordSuccess c t) cb.successThreshold cb).state = .closed ∧
    (applyN (fun c => recordSuccess c t) cb.successThreshold cb).failures = 0 := by
  obtain ⟨n, hn⟩ : ∃ n, cb.successThreshold = n + 1 :=
    ⟨cb.successThreshold - 1, by omega⟩
  rw [hn]
  obtain ⟨h1, h2, h3⟩ := iterSucc_halfOpen cb t hs h0 n (by omega)
  have hcond : (applyN (fun c => recordSuccess c t) n cb).successThreshold ≤
      (applyN (fun c => recordSuccess c t) n cb).successes + 1 := by
    rw [h2, h3]; omega
  have heq : applyN (fun c => recordSuccess c t) (n + 1) cb =
      recordSuccess (applyN (fun c => recordSuccess c t) n cb) t := rfl
  rw [heq, recordSuccess_halfOpen_ge _ t h1 hcond]
  simp [transitionTo]

/-- C2.  Circuit breaker state-machine correctness: from `closed` with a zero
failure counter, `failureThreshold` consecutive `recordFailure` calls open
the breaker with `nextAttempt = t1 + timeout`; while `now < nextAttempt`,
`canExecute()` returns `false` and changes nothing; at any `now ≥
nextAttempt` it returns `true` and moves to `half-open`; from there
`successThreshold` consecutive `recordSuccess` calls close the breaker with
the failure counter at 0, while a single `recordFailure` reopens it. -/
theorem breaker_state_machine (cb : CircuitBreaker) (t1 t2 t3 now : Nat)
    (hs : cb.state = .closed) (hf : cb.failures = 0)
    (hft : 1 ≤ cb.failureThreshold) (hst : 1 ≤ cb.successThreshold) :
    (afterFailures cb t1).state = .opened ∧
    (afterFailures cb t1).nextAttempt = some (t1 + cb.timeout) ∧
    (∀ m, m < t1 + cb.timeout →
      canExecute (afterFailures cb t1) m = (false, afterFailures cb t1)) ∧
    (t1 + cb.timeout ≤ now →
      (canExecute (afterFailures cb t1) now).1 = true ∧
      (probed cb t1 now).state = .halfOpen ∧
      (applyN (fun c => recordSuccess c t2) cb.successThreshold
        (probed cb t1 now)).state = .closed ∧
      (applyN (fun c => recordSuccess c t2) cb.successThreshold
        (probed cb t1 now)).failures = 0 ∧
      (recordFailure (probed cb t1 now) t3).state = .opened) := by
  obtain ⟨hop, hna, hsucTh, hsuc0⟩ := afterFailures_opened cb t1 hs hf hft
  refine ⟨hop, hna, ?_, ?_⟩
  · intro m hm
    simp only [canExecute, hop, hna, Option.getD_some]
    rw [if_neg (by omega)]
  · intro hnow
    have hcond : (afterFailures cb t1).nextAttempt.getD 0 ≤ now := by
      rw [hna]; simpa using hnow
    have hprobe : probed cb t1 now = transitionTo (afterFailures cb t1) .halfOpen now := by
      simp only [probed, canExecute, hop, if_pos hcond]
    have hpstate : (probed cb t1 now).state = .halfOpen := by
      rw [hprobe]; simp [transitionTo]
    have hpsucc : (probed cb t1 now).successes = 0 := by
      rw [hprobe]; simp [transitionTo]
    have hpth : (probed cb t1 now).successThreshold = cb.successThreshold := by
      rw [hprobe]; simp only [transitionTo]; exact hsucTh
    have hclose := iterSucc_closes (probed cb t1 now) t2 hpstate hpsucc (hpth ▸ hst)
    rw [hpth] at hclose
    refine ⟨?_, hpstate, hclose.1, hclose.2, ?_⟩
    · simp only [canExecute, hop, if_pos hcond]
    · simp only [recordFailure, hpstate, transitionTo]

/-- Witness for `breaker_state_machine` at the S4 configuration
(thresholds 3 and 2, timeout 1000): three failures at time 0 open the
breaker, `canExecute` at 500 refuses, at 1100 it permits and half-opens,
two successes close with the failure counter at 0, and one half-open
failure reopens. -/
theorem breaker_state_machine_witness :
    (afterFailures (mkCircuitBreaker "ai" (some 3) (some 2) (some 1000)) 0).state = .opened ∧
    (canExecute (afterFailures (mkCircuitBreaker "ai" (some 3) (some 2) (some 1000)) 0) 500).1 = false ∧
    (canExecute (afterFailures (mkCircuitBreaker "ai" (some 3) (some 2) (some 1000)) 0) 1100).1 = true ∧
    (probed (mkCircuitBreaker "ai" (some 3) (some 2) (some 1000)) 0 1100).state = .halfOpen ∧
    (applyN (fun c => recordSuccess c 1200) 2
      (probed (mkCircuitBreaker "ai" (some 3) (some 2) (some 1000)) 0 1100)).state = .closed ∧
    (applyN (fun c => recordSuccess c 1200) 2
      (probed (mkCircuitBreaker "ai" (some 3) (some 2) (some 1000)) 0 1100)).failures = 0 ∧
    (recordFailure (probed (mkCircuitBreaker "ai" (some 3) (some 2) (some 1000)) 0 1100) 1300).state = .opened := by
  have h := breaker_state_machine (mkCircuitBreaker "ai" (some 3) (some 2) (some 1000))
    0 1200 1300 1100 rfl rfl (by decide) (by decide)
  obtain ⟨h1, h2, h3, h4⟩ := h
  have h5 := h4 (by decide)
  refine ⟨h1, ?_, h5.1, h5.2.1, ?_, ?_, h5.2.2.2.2⟩
  · rw [h3 500 (by decide)]
  · have := h5.2.2.1
    simpa using this
  · have := h5.2.2.2.1
    simpa using this

/-- C10.  `recordSuccess` invoked while the breaker is `OPEN` only bumps the
`totalCalls` and `successfulCalls` metrics; state, counters and
`nextAttempt` are untouched. -/
theorem recordSuccess_open_frame (cb : CircuitBreaker) (now : Nat)
    (h : cb.state = .opened) :
    recordSuccess cb now =
      { cb with
        totalCalls := cb.totalCalls + 1
        successfulCalls := cb.successfulCalls + 1 } := by
  simp only [recordSuccess, h]

/-- Witness for `recordSuccess_open_frame` on a concrete open breaker. -/
theorem recordSuccess_open_frame_witness :
    recordSuccess (transitionTo (mkCircuitBreaker "w" none none none) .opened 7) 9 =
      { transitionTo (mkCircuitBreaker "w" none none none) .opened 7 with
        totalCalls := (transitionTo (mkCircuitBreaker "w" none none none) .opened 7).totalCalls + 1
        successfulCalls := (transitionTo (mkCircuitBreaker "w" none none none) .opened 7).successfulCalls + 1 } :=
  recordSuccess_open_frame (transitionTo (mkCircuitBreaker "w" none none none) .opened 7) 9 rfl

lemma enqueue_frame (q : EventQueue α) (e : α) (now : Nat) :
    (enqueue q e now).2.maxQueueSize = q.maxQueueSize := by
  unfold enqueue
  split
  · rfl
  · dsimp only
    split <;> rfl

lemma enqueue_len (q : EventQueue α) (e : α) (now : Nat)
    (h : q.queue.length ≤ q.maxQueueSize) :
    (enqueue q e now).2.queue.length ≤ q.maxQueueSize := by
  unfold enqueue
  split
  · simpa using h
  · rename_i hlt
    dsimp only
    split <;> simp <;> omega

lemma enqueueAll_len (es : List (α × Nat)) :
    ∀ q : EventQueue α, q.queue.length ≤ q.maxQueueSize →
      (enqueueAll q es).queue.length ≤ q.maxQueueSize := by
  induction es with
  | nil => intro q h; exact h
  | cons e tl ih =>
      intro q h
      have h1 := enqueue_len q e.1 e.2 h
      have h2 := enqueue_frame q e.1 e.2
      have := ih (enqueue q e.1 e.2).2 (by rw [h2]; exact h1)
      rw [h2] at this
      simpa [enqueueAll, List.foldl_cons] using this

/-- C5.  Bounded queue memory: starting from a fresh queue, any sequence of
`enqueue` calls leaves the queue length at most `maxQueueSize`; and any
`enqueue` against a queue that is already at (or beyond) capacity returns
the `queue_full` rejection carrying the current `queueSize`, leaves the
queue itself unchanged, and only bumps the `rejected` counter.  `enqueue`
is a total function of the model, so it cannot throw. -/
theorem queue_bounded_and_rejects (α : Type) (m bs bi ws wi : Option Nat)
    (es : List (α × Nat)) :
    (enqueueAll (mkEventQueue α m bs bi ws wi) es).queue.length ≤
      (mkEventQueue α m bs bi ws wi).maxQueueSize ∧
    (∀ (q : EventQueue α) (e : α) (now : Nat),
      q.maxQueueSize ≤ q.queue.length →
      enqueue q e now =
        ({ success := false, queued := none, reason := some "queue_full",
           queueSize := q.queue.length },
         { q with rejected := q.rejected + 1 })) := by
  constructor
  · exact enqueueAll_len es _ (by simp [mkEventQueue])
  · intro q e now h
    unfold enqueue
    rw [if_pos h]

/-- Witness for `queue_bounded_and_rejects`: a capacity-2 queue fed three
events stays at length 2, and an enqueue against the full queue is the
unchanged-queue `queue_full` rejection. -/
theorem queue_bounded_and_rejects_witness :
    (enqueueAll (mkEventQueue Nat (some 2) none none none none)
      [(1, 0), (2, 1), (3, 2)]).queue.length ≤
      (mkEventQueue Nat (some 2) none none none none).maxQueueSize ∧
    enqueue (enqueueAll (mkEventQueue Nat (some 2) none none none none)
        [(1, 0), (2, 1), (3, 2)]) 9 5 =
      ({ success := false, queued := none, reason := some "queue_full",
         queueSize := (enqueueAll (mkEventQueue Nat (some 2) none none none none)
           [(1, 0), (2, 1), (3, 2)]).queue.length },
       { enqueueAll (mkEventQueue Nat (some 2) none none none none)
           [(1, 0), (2, 1), (3, 2)] with
         rejected := (enqueueAll (mkEventQueue Nat (some 2) none none none none)
           [(1, 0), (2, 1), (3, 2)]).rejected + 1 }) := by
  have h := queue_bounded_and_rejects Nat (some 2) none none none none
    [(1, 0), (2, 1), (3, 2)]
  exact ⟨h.1, h.2 _ 9 5 (by decide)⟩

/-- C3.  Scenario S1: `scoreEvent` on `{service: "payment-service",
severity: 4}` with `currentRate = 50`, `baselineRate = 10` yields base
score 75, service multiplier 2.0, frequency multiplier 2.0 at level
`critical` (ratio 5 ≥ 4.0), and final score `min(round(300), 100) = 100`. -/
theorem scoreEvent_scenario_s1 :
    (scoreEvent ⟨"payment-service", 4⟩ 50 10).baseScore = 75 ∧
    (scoreEvent ⟨"payment-service", 4⟩ 50 10).serviceMultiplier = 2 ∧
    (scoreEvent ⟨"payment-service", 4⟩ 50 10).frequencyMultiplier = 2 ∧
    (scoreEvent ⟨"payment-service", 4⟩ 50 10).frequencyLevel = "critical" ∧
    (scoreEvent ⟨"payment-service", 4⟩ 50 10).finalScore = 100 := by
  have hlow : toLowerStr "payment-service" = "payment-service" := by decide
  refine ⟨?_, ?_, ?_, ?_, ?_⟩ <;>
    norm_num [scoreEvent, getBaseScore, baseScores, getServiceMultiplier,
      criticalServiceMultiplier, hlow, getFrequencyMultiplier, round_eq]

lemma getBaseScore_ge_ten (s : ℚ) : 10 ≤ getBaseScore s := by
  unfold getBaseScore baseScores
  repeat' split
  all_goals norm_num

lemma getServiceMultiplier_ge_one (s : String) : 1 ≤ getServiceMultiplier s := by
  unfold getServiceMultiplier criticalServiceMultiplier
  repeat' split
  all_goals norm_num

lemma getFrequencyMultiplier_ge_one (c b : ℚ) :
    1 ≤ (getFrequencyMultiplier c b).1 := by
  unfold getFrequencyMultiplier
  repeat' split
  all_goals norm_num

lemma round_nonneg_of_nonneg (x : ℚ) (h : 0 ≤ x) : 0 ≤ round x := by
  rw [round_eq]
  exact Int.le_floor.mpr (by push_cast; linarith)

lemma scoreEvent_finalScore_nonneg (e : SEvent) (c b : ℚ) :
    0 ≤ (scoreEvent e c b).finalScore := by
  have hb := getBaseScore_ge_ten e.severity
  have hs := getServiceMultiplier_ge_one e.service
  have hf := getFrequencyMultiplier_ge_one c b
  have hprod : 0 ≤ getBaseScore e.severity * getServiceMultiplier e.service *
      (getFrequencyMultiplier c b).1 := by positivity
  have hr := round_nonneg_of_nonneg _ hprod
  simp only [scoreEvent]
  exact le_min hr (by norm_num)

lemma foldl_max_init_le (l : List ℤ) : ∀ a : ℤ, a ≤ l.foldl max a := by
  induction l with
  | nil => intro a; simp
  | cons x t ih =>
      intro a
      calc a ≤ max a x := le_max_left a x
        _ ≤ t.foldl max (max a x) := ih (max a x)
        _ = (x :: t).foldl max a := by simp [List.foldl_cons]

lemma maxInt_nonneg (l : List ℤ) (h : ∀ x ∈ l, 0 ≤ x) : 0 ≤ maxInt l := by
  cases l with
  | nil => simp [maxInt]
  | cons x t =>
      have hx : 0 ≤ x := h x (by simp)
      exact le_trans hx (foldl_max_init_le t x)

lemma getSeverityLevel_bounds (z : ℤ) :
    1 ≤ getSeverityLevel z ∧ getSeverityLevel z ≤ 5 := by
  unfold getSeverityLevel
  repeat' split
  all_goals omega

lemma compositeScoreOf_bounds (log10 : Nat → ℚ) (scores : List ℤ) (n : Nat)
    (hscores : ∀ x ∈ scores, 0 ≤ x) (hn : 1 ≤ n)
    (hlog : ∀ k : Nat, 1 ≤ k → 0 ≤ log10 k) :
    0 ≤ compositeScoreOf log10 scores n ∧ compositeScoreOf log10 scores n ≤ 100 := by
  have hmax : (0 : ℚ) ≤ (maxInt scores : ℚ) := by
    exact_mod_cast maxInt_nonneg scores hscores
  have hsum : (0 : ℚ) ≤ ((scores.sum : ℤ) : ℚ) := by
    exact_mod_cast List.sum_nonneg hscores
  have hlen : (0 : ℚ) ≤ (scores.length : ℚ) := by positivity
  have havg : (0 : ℚ) ≤ ((scores.sum : ℤ) : ℚ) / (scores.length : ℚ) :=
    div_nonneg hsum hlen
  have hcf : 0 ≤ countFactorOf log10 n := by
    unfold countFactorOf
    have := hlog n hn
    exact le_min (by linarith) (by norm_num)
  have hx : (0 : ℚ) ≤ ((maxInt scores : ℚ) * (6/10) +
      ((scores.sum : ℤ) : ℚ) / (scores.length : ℚ) * (4/10)) *
        countFactorOf log10 n := by positivity
  have hr := round_nonneg_of_nonneg _ hx
  unfold compositeScoreOf
  exact ⟨le_min hr (by norm_num), min_le_right _ _⟩

/-- C8.  `scoreIncident` is a pure function (a Lean function of its event
list and spike context); its composite score always lies in `[0, 100]` and
its severity level in `1..5` (given only that `Math.log10` is nonnegative
on counts ≥ 1), and the empty event list returns composite 0, level 1,
classification `low`. -/
theorem scoreIncident_bounds (log10 : Nat → ℚ) (events : List SEvent)
    (spikeData : List (String × SpikeCtx))
    (hlog : ∀ k : Nat, 1 ≤ k → 0 ≤ log10 k) :
    (0 ≤ (scoreIncident log10 events spikeData).compositeScore ∧
     (scoreIncident log10 events spikeData).compositeScore ≤ 100 ∧
     1 ≤ (scoreIncident log10 events spikeData).severityLevel ∧
     (scoreIncident log10 events spikeData).severityLevel ≤ 5) ∧
    ((scoreIncident log10 [] spikeData).compositeScore = 0 ∧
     (scoreIncident log10 [] spikeData).severityLevel = 1 ∧
     (scoreIncident log10 [] spikeData).classification = "low") := by
  constructor
  · by_cases hemp : events.isEmpty
    · simp [scoreIncident, hemp, getSeverityLevel]
    · have hn : 1 ≤ events.length := by
        cases events with
        | nil => simp at hemp
        | cons a t => simp
      have hscores : ∀ x ∈ (events.map (fun e =>
          match spikeData.lookup e.service with
          | some s => scoreEvent e s.currentCount s.mean
          | none => scoreEvent e 0 0)).map (fun s => s.finalScore), 0 ≤ x := by
        intro x hx
        simp only [List.mem_map] at hx
        obtain ⟨sc, hsc, hxeq⟩ := hx
        obtain ⟨e, _, heeq⟩ := hsc
        subst hxeq
        subst heeq
        cases h : spikeData.lookup e.service <;>
          simp only [h] <;> exact scoreEvent_finalScore_nonneg _ _ _
      have hb := compositeScoreOf_bounds log10 _ events.length hscores hn hlog
      have hl := getSeverityLevel_bounds (compositeScoreOf log10
        ((events.map (fun e =>
          match spikeData.lookup e.service with
          | some s => scoreEvent e s.currentCount s.mean
          | none => scoreEvent e 0 0)).map (fun s => s.finalScore)) events.length)
      simp only [scoreIncident, hemp, Bool.false_eq_true, if_false]
      exact ⟨hb.1, hb.2, hl.1, hl.2⟩
  · refine ⟨?_, ?_, ?_⟩ <;> simp [scoreIncident]

/-- Witness for `scoreIncident_bounds` with the zero `log10` oracle and a
concrete two-event incident. -/
theorem scoreIncident_bounds_witness :
    (0 ≤ (scoreIncident (fun _ => 0) [⟨"payment-service", 4⟩, ⟨"x", 2⟩]
        [("payment-service", ⟨50, 10⟩)]).compositeScore ∧
     (scoreIncident (fun _ => 0) [⟨"payment-service", 4⟩, ⟨"x", 2⟩]
        [("payment-service", ⟨50, 10⟩)]).compositeScore ≤ 100 ∧
     1 ≤ (scoreIncident (fun _ => 0) [⟨"payment-service", 4⟩, ⟨"x", 2⟩]
        [("payment-service", ⟨50, 10⟩)]).severityLevel ∧
     (scoreIncident (fun _ => 0) [⟨"payment-service", 4⟩, ⟨"x", 2⟩]
        [("payment-service", ⟨50, 10⟩)]).severityLevel ≤ 5) ∧
    ((scoreIncident (fun _ => 0) ([] : List SEvent)
        [("payment-service", ⟨50, 10⟩)]).compositeScore = 0 ∧
     (scoreIncident (fun _ => 0) ([] : List SEvent)
        [("payment-service", ⟨50, 10⟩)]).severityLevel = 1 ∧
     (scoreIncident (fun _ => 0) ([] : List SEvent)
        [("payment-service", ⟨50, 10⟩)]).classification = "low") :=
  scoreIncident_bounds (fun _ => 0) [⟨"payment-service", 4⟩, ⟨"x", 2⟩]
    [("payment-service", ⟨50, 10⟩)] (fun _ _ => le_refl 0)

/-- C4.  Scenario S2 plus the general spike criterion.  For the retained
counts `[10, 12, 8, 14, 11]` (and any `Math.sqrt` oracle that returns the
nonnegative square root of their variance): mean 11, stdDev 2, enough data;
`isSpike` at count 15 is false while at 16 it is true with deviations 2.5
and level `elevated`.  In general, once there is enough data, the spike
flag holds iff `currentCount > mean + stdDev * stdDevThreshold` and
`stdDev > 0`. -/
theorem spike_threshold_s2 (sqrtQ : ℚ → ℚ)
    (h0 : 0 ≤ sqrtQ (varianceOf [10, 12, 8, 14, 11]))
    (h1 : sqrtQ (varianceOf [10, 12, 8, 14, 11]) *
      sqrtQ (varianceOf [10, 12, 8, 14, 11]) = varianceOf [10, 12, 8, 14, 11]) :
    ((computeServiceStats sqrtQ 3 [10, 12, 8, 14, 11]).mean = 11 ∧
     (computeServiceStats sqrtQ 3 [10, 12, 8, 14, 11]).stdDev = 2 ∧
     (computeServiceStats sqrtQ 3 [10, 12, 8, 14, 11]).hasEnoughData = true) ∧
    (isSpikeFromStats 2 (computeServiceStats sqrtQ 3 [10, 12, 8, 14, 11]) 15).isSpike = false ∧
    (isSpikeFromStats 2 (computeServiceStats sqrtQ 3 [10, 12, 8, 14, 11]) 16).isSpike = true ∧
    (isSpikeFromStats 2 (computeServiceStats sqrtQ 3 [10, 12, 8, 14, 11]) 16).deviations = some (5/2) ∧
    (isSpikeFromStats 2 (computeServiceStats sqrtQ 3 [10, 12, 8, 14, 11]) 16).spikeLevel = some "elevated" ∧
    (∀ (st : ServiceStatsResult) (c t : ℚ), st.hasEnoughData = true →
      ((isSpikeFromStats t st c).isSpike = true ↔
        (st.mean + st.stdDev * t < c ∧ 0 < st.stdDev))) := by
  have hv : varianceOf [10, 12, 8, 14, 11] = 4 := by
    norm_num [varianceOf, meanOf]
  rw [hv] at h0 h1
  have hs : sqrtQ 4 = 2 := by
    have h4 : sqrtQ 4 * sqrtQ 4 = 2 * 2 := by rw [h1]; norm_num
    rcases mul_self_eq_mul_self_iff.mp h4 with h | h
    · exact h
    · exfalso; rw [h] at h0; norm_num at h0
  have hstats : computeServiceStats sqrtQ 3 [10, 12, 8, 14, 11] =
      { mean := 11, stdDev := 2, dataPoints := 5, hasEnoughData := true } := by
    have hm : meanOf [10, 12, 8, 14, 11] = 11 := by norm_num [meanOf]
    simp only [computeServiceStats, hv, hs, hm, round2]
    norm_num [round_eq]
  refine ⟨?_, ?_, ?_, ?_, ?_, ?_⟩
  · rw [hstats]; exact ⟨rfl, rfl, rfl⟩
  · rw [hstats]; norm_num [isSpikeFromStats]
  · rw [hstats]; norm_num [isSpikeFromStats]
  · rw [hstats]
    norm_num [isSpikeFromStats, round2, round_eq]
  · rw [hstats]
    norm_num [isSpikeFromStats]
  · intro st c t h
    simp only [isSpikeFromStats, h, Bool.not_true, Bool.false_eq_true, if_false,
      Bool.and_eq_true, decide_eq_true_eq]

/-- Witness for `spike_threshold_s2` with the oracle that answers 2 on the
concrete variance. -/
theorem spike_threshold_s2_witness :
    (isSpikeFromStats 2 (computeServiceStats (fun q => if q = 4 then 2 else 0)
      3 [10, 12, 8, 14, 11]) 15).isSpike = false ∧
    (isSpikeFromStats 2 (computeServiceStats (fun q => if q = 4 then 2 else 0)
      3 [10, 12, 8, 14, 11]) 16).isSpike = true ∧
    (isSpikeFromStats 2 (computeServiceStats (fun q => if q = 4 then 2 else 0)
      3 [10, 12, 8, 14, 11]) 16).deviations = some (5/2) ∧
    (isSpikeFromStats 2 (computeServiceStats (fun q => if q = 4 then 2 else 0)
      3 [10, 12, 8, 14, 11]) 16).spikeLevel = some "elevated" := by
  have hv : varianceOf [10, 12, 8, 14, 11] = 4 := by
    norm_num [varianceOf, meanOf]
  have h := spike_threshold_s2 (fun q => if q = 4 then 2 else 0)
    (by rw [hv]; norm_num) (by rw [hv]; norm_num)
  exact ⟨h.2.1, h.2.2.1, h.2.2.2.1, h.2.2.2.2.1⟩

lemma callWithRetryAux_attempts_le (cfg : RetryConfig)
    (outcomes : Nat → AttemptOutcome) :
    ∀ (r a : Nat) (s : List Nat) (l : Option (Option Nat)),
      attemptsOf (callWithRetryAux cfg outcomes r a s l) ≤ a + r := by
  intro r
  induction r with
  | zero => intro a s l; simp [callWithRetryAux, attemptsOf]
  | succ n ih =>
      intro a s l
      simp only [callWithRetryAux]
      cases outcomes a with
      | ok => simp only [attemptsOf]; omega
      | fail c =>
          dsimp only
          split
          · simp only [attemptsOf]; omega
          · split
            · exact le_trans (ih (a + 1) _ _) (by omega)
            · split
              · exact le_trans (ih (a + 1) _ _) (by omega)
              · exact le_trans (ih (a + 1) _ _) (by omega)

lemma retry_reach (cfg : RetryConfig) (outcomes : Nat → AttemptOutcome) :
    ∀ k, k ≤ cfg.maxRetries → (∀ j, j < k → retryable (outcomes j)) →
      callWithRetry cfg outcomes =
        callWithRetryAux cfg outcomes (cfg.maxRetries - k) k
          (sleepsUpTo cfg outcomes k) (lastCode outcomes k) := by
  intro k
  induction k with
  | zero =>
      intro _ _
      simp [callWithRetry, sleepsUpTo, lastCode]
  | succ n ih =>
      intro hle hpre
      have hlt : n < cfg.maxRetries := by omega
      rw [ih (by omega) (fun j hj => hpre j (by omega))]
      obtain ⟨c, hc, hnotauth⟩ := hpre n (by omega)
      have hfuel : cfg.maxRetries - n = (cfg.maxRetries - (n + 1)) + 1 := by omega
      rw [hfuel]
      simp only [callWithRetryAux, hc]
      rw [if_neg hnotauth]
      have htr : sleepsUpTo cfg outcomes (n + 1) =
          sleepsUpTo cfg outcomes n ++
            (List.filterMap (fun j =>
              if outcomes j = .fail (some 429) then some (j + 2)
              else if j < cfg.maxRetries - 1 then some j
              else none) [n]) := by
        simp [sleepsUpTo, List.range_succ]
      have hlast : lastCode outcomes (n + 1) = some c := by
        simp [lastCode, hc]
      by_cases h429 : c = some 429
      · subst h429
        rw [if_pos rfl]
        rw [htr, hlast]
        simp [List.filterMap, hc]
      · rw [if_neg (by simpa [hc] using h429)]
        by_cases hlastAttempt : n < cfg.maxRetries - 1
        · rw [if_pos hlastAttempt, htr, hlast]
          have : outcomes n = AttemptOutcome.fail (some 429) ↔ False := by
            simp [hc]
            intro h
            exact h429 (by rw [h])
          simp [List.filterMap, hc, h429, hlastAttempt]
        · rw [if_neg hlastAttempt, htr, hlast]
          simp [List.filterMap, hc, h429, hlastAttempt]

/-- C7 (amended).  `callWithRetry` makes at most `maxRetries` attempts;
a 401/403 failure rethrows immediately with no further attempt and no
further sleep; a success at attempt `k` returns after `k + 1` attempts;
when every attempt fails retryably the loop throws the last error after
exactly `maxRetries` attempts; each sleep's duration is
`min(baseDelay * 2^e, maxDelay) * (1 + r/10)` for the random draw
`r`, where the exponent trace records `j` for an ordinary failure at
attempt `j` (skipped on the final attempt) and `j + 2` — two extra
backoff doublings, not one — after an HTTP 429. -/
theorem retry_policy (cfg : RetryConfig) (outcomes : Nat → AttemptOutcome) :
    (attemptsOf (callWithRetry cfg outcomes) ≤ cfg.maxRetries) ∧
    (∀ k c, k < cfg.maxRetries → (∀ j, j < k → retryable (outcomes j)) →
      outcomes k = .fail c → (c = some 401 ∨ c = some 403) →
      callWithRetry cfg outcomes =
        .thrown c (k + 1) (sleepsUpTo cfg outcomes k)) ∧
    (∀ k, k < cfg.maxRetries → (∀ j, j < k → retryable (outcomes j)) →
      outcomes k = .ok →
      callWithRetry cfg outcomes =
        .success (k + 1) (sleepsUpTo cfg outcomes k)) ∧
    ((∀ j, j < cfg.maxRetries → retryable (outcomes j)) →
      callWithRetry cfg outcomes =
        .thrown ((lastCode outcomes cfg.maxRetries).getD none) cfg.maxRetries
          (sleepsUpTo cfg outcomes cfg.maxRetries)) ∧
    (∀ k, outcomes k = .fail (some 429) →
      sleepsUpTo cfg outcomes (k + 1) = sleepsUpTo cfg outcomes k ++ [k + 2]) ∧
    (∀ (k : Nat) (r : ℚ), sleepDelay cfg k r = backoffDelay cfg k * (1 + r / 10)) := by
  refine ⟨?_, ?_, ?_, ?_, ?_, ?_⟩
  · have h := callWithRetryAux_attempts_le cfg outcomes cfg.maxRetries 0 [] none
    simpa [callWithRetry] using h
  · intro k c hk hpre hck hauth
    rw [retry_reach cfg outcomes k (by omega) hpre]
    have hfuel : cfg.maxRetries - k = (cfg.maxRetries - (k + 1)) + 1 := by omega
    rw [hfuel]
    simp only [callWithRetryAux, hck]
    rw [if_pos hauth]
  · intro k hk hpre hok
    rw [retry_reach cfg outcomes k (by omega) hpre]
    have hfuel : cfg.maxRetries - k = (cfg.maxRetries - (k + 1)) + 1 := by omega
    rw [hfuel]
    simp only [callWithRetryAux, hok]
  · intro hall
    rw [retry_reach cfg outcomes cfg.maxRetries (le_refl _) hall]
    simp [callWithRetryAux]
  · intro k h429
    simp [sleepsUpTo, List.range_succ, List.filterMap, h429]
  · intro k r
    unfold sleepDelay
    ring

/-- Witness for `retry_policy` at the default config with a 500 failure
then a success: two attempts, one sleep with exponent 0. -/
theorem retry_policy_witness :
    attemptsOf (callWithRetry defaultRetryConfig
      (fun j => if j = 0 then .fail (some 500) else .ok)) ≤ 3 ∧
    callWithRetry defaultRetryConfig
      (fun j => if j = 0 then .fail (some 500) else .ok) = .success 2 [0] ∧
    sleepDelay defaultRetryConfig 0 (1/2) =
      backoffDelay defaultRetryConfig 0 * (1 + (1/2) / 10) := by
  have h := retry_policy defaultRetryConfig
    (fun j => if j = 0 then .fail (some 500) else .ok)
  refine ⟨h.1, ?_, h.2.2.2.2.2 0 (1/2)⟩
  have hs := h.2.2.1 1 (by norm_num [defaultRetryConfig])
    (by
      intro j hj
      have : j = 0 := by omega
      subst this
      exact ⟨some 500, rfl, by simp⟩)
    (by simp)
  rw [hs]
  norm_num [sleepsUpTo, defaultRetryConfig, List.range_succ, List.filterMap]

/-- C7, counterexample to the claim as stated: after the 429 at attempt 0
the code sleeps with exponent `0 + 2` (raw delay 4000 ms, four times the
base backoff of 1000 ms); "exactly one extra backoff doubling" would be
exponent 1 (2000 ms). -/
theorem retry_429_single_doubling_false :
    callWithRetry defaultRetryConfig
      (fun j => if j = 0 then .fail (some 429) else .ok) = .success 2 [2] ∧
    backoffDelay defaultRetryConfig 2 = 4000 ∧
    backoffDelay defaultRetryConfig 1 = 2000 ∧
    (4000 : ℚ) ≠ 2000 := by
  refine ⟨rfl, ?_, ?_, by norm_num⟩ <;>
    norm_num [backoffDelay, defaultRetryConfig]

lemma applyStatus_spec (inc : IncidentDoc) (ps : Option String) (now : Nat) :
    ((applyStatus inc ps now).incidentId = inc.incidentId ∧
     (applyStatus inc ps now).eventIds = inc.eventIds ∧
     (applyStatus inc ps now).severityScore = inc.severityScore ∧
     (applyStatus inc ps now).affectedServices = inc.affectedServices ∧
     (applyStatus inc ps now).summary = inc.summary ∧
     (applyStatus inc ps now).aiGeneratedSummary = inc.aiGeneratedSummary ∧
     (applyStatus inc ps now).createdAt = inc.createdAt ∧
     (applyStatus inc ps now).updatedAt = inc.updatedAt ∧
     (applyStatus inc ps now).assignedTo = inc.assignedTo ∧
     (applyStatus inc ps now).acknowledgedAt = inc.acknowledgedAt ∧
     (applyStatus inc ps now).rootCause = inc.rootCause ∧
     (applyStatus inc ps now).resolution = inc.resolution) ∧
    (ps = some "resolved" → inc.resolvedAt = none →
      (applyStatus inc ps now).resolvedAt = some now) := by
  unfold applyStatus
  refine ⟨?_, ?_⟩
  · repeat' constructor
    all_goals (dsimp only; repeat' split) <;> rfl
  · intro hstat hres
    subst hstat
    simp [hres]

lemma applyAssignee_spec (inc : IncidentDoc) (pa : Option (Option String))
    (now : Nat) :
    ((applyAssignee inc pa now).incidentId = inc.incidentId ∧
     (applyAssignee inc pa now).eventIds = inc.eventIds ∧
     (applyAssignee inc pa now).severityScore = inc.severityScore ∧
     (applyAssignee inc pa now).affectedServices = inc.affectedServices ∧
     (applyAssignee inc pa now).summary = inc.summary ∧
     (applyAssignee inc pa now).aiGeneratedSummary = inc.aiGeneratedSummary ∧
     (applyAssignee inc pa now).createdAt = inc.createdAt ∧
     (applyAssignee inc pa now).updatedAt = inc.updatedAt ∧
     (applyAssignee inc pa now).rootCause = inc.rootCause ∧
     (applyAssignee inc pa now).resolution = inc.resolution ∧
     (applyAssignee inc pa now).status = inc.status) ∧
    (∀ a, pa = some (some a) → a ≠ "" → inc.acknowledgedAt = none →
      (applyAssignee inc pa now).acknowledgedAt = some now) ∧
    (applyAssignee inc pa now).resolvedAt = inc.resolvedAt := by
  unfold applyAssignee
  refine ⟨?_, ?_, ?_⟩
  · repeat' constructor
    all_goals (dsimp only; repeat' split) <;> rfl
  · intro a hpa ha hack
    subst hpa
    simp [ha, hack]
  · dsimp only
    repeat' split
    all_goals rfl

lemma applyResolution_frame (inc : IncidentDoc) (pr : Option (Option String)) :
    (applyResolution inc pr).incidentId = inc.incidentId ∧
    (applyResolution inc pr).eventIds = inc.eventIds ∧
    (applyResolution inc pr).severityScore = inc.severityScore ∧
    (applyResolution inc pr).affectedServices = inc.affectedServices ∧
    (applyResolution inc pr).summary = inc.summary ∧
    (applyResolution inc pr).aiGeneratedSummary = inc.aiGeneratedSummary ∧
    (applyResolution inc pr).createdAt = inc.createdAt ∧
    (applyResolution inc pr).updatedAt = inc.updatedAt ∧
    (applyResolution inc pr).assignedTo = inc.assignedTo ∧
    (applyResolution inc pr).acknowledgedAt = inc.acknowledgedAt ∧
    (applyResolution inc pr).resolvedAt = inc.resolvedAt ∧
    (applyResolution inc pr).rootCause = inc.rootCause ∧
    (applyResolution inc pr).status = inc.status := by
  unfold applyResolution
  repeat' constructor
  all_goals (dsimp only; repeat' split) <;> rfl

lemma applyRootCause_frame (inc : IncidentDoc) (pc : Option (Option String)) :
    (applyRootCause inc pc).incidentId = inc.incidentId ∧
    (applyRootCause inc pc).eventIds = inc.eventIds ∧
    (applyRootCause inc pc).severityScore = inc.severityScore ∧
    (applyRootCause inc pc).affectedServices = inc.affectedServices ∧
    (applyRootCause inc pc).summary = inc.summary ∧
    (applyRootCause inc pc).aiGeneratedSummary = inc.aiGeneratedSummary ∧
    (applyRootCause inc pc).createdAt = inc.createdAt ∧
    (applyRootCause inc pc).updatedAt = inc.updatedAt ∧
    (applyRootCause inc pc).assignedTo = inc.assignedTo ∧
    (applyRootCause inc pc).acknowledgedAt = inc.acknowledgedAt ∧
    (applyRootCause inc pc).resolvedAt = inc.resolvedAt ∧
    (applyRootCause inc pc).resolution = inc.resolution ∧
    (applyRootCause inc pc).status = inc.status := by
  unfold applyRootCause
  repeat' constructor
  all_goals (dsimp only; repeat' split) <;> rfl

/-- C9, counterexample to the claim as stated: a PATCH carrying the
non-null but empty-string `assignedTo` saves successfully, sets the
`assignedTo` field, yet leaves the unset `acknowledgedAt` unset (the
controller guards the stamp with JS truthiness, not a null check). -/
theorem patch_empty_assignee_no_ack :
    sampleIncident.acknowledgedAt = none ∧
    (updateIncidentHandler sampleIncident
      { status := none, assignedTo := some (some ""), resolution := none,
        rootCause := none } 5).map (fun r => r.assignedTo) =
      some (some "") ∧
    (updateIncidentHandler sampleIncident
      { status := none, assignedTo := some (some ""), resolution := none,
        rootCause := none } 5).map (fun r => r.acknowledgedAt) =
      some none := by
  refine ⟨rfl, ?_, ?_⟩ <;> rfl

/-- C9 (amended).  For every incident and PATCH body: the controller's
mutations stamp `resolvedAt` when `status = "resolved"` arrives and it is
unset, stamp `acknowledgedAt` when a non-null, non-empty `assignedTo`
arrives and it is unset, and touch no field outside
`{status, assignedTo, resolution, rootCause}` and their derived
timestamps `resolvedAt` / `acknowledgedAt`; `incident.save()` then either
persists exactly that document (with only the schema's automatic
`updatedAt` refreshed) or rejects it when the schema validators (status
enum, severityScore range, required incidentId) fail. -/
theorem patch_side_effects (inc : IncidentDoc) (p : IncidentPatch) (now : Nat) :
    (p.status = some "resolved" → inc.resolvedAt = none →
      (patchMutations inc p now).resolvedAt = some now) ∧
    (∀ a, p.assignedTo = some (some a) → a ≠ "" → inc.acknowledgedAt = none →
      (patchMutations inc p now).acknowledgedAt = some now) ∧
    ((patchMutations inc p now).incidentId = inc.incidentId ∧
     (patchMutations inc p now).eventIds = inc.eventIds ∧
     (patchMutations inc p now).severityScore = inc.severityScore ∧
     (patchMutations inc p now).affectedServices = inc.affectedServices ∧
     (patchMutations inc p now).summary = inc.summary ∧
     (patchMutations inc p now).aiGeneratedSummary = inc.aiGeneratedSummary ∧
     (patchMutations inc p now).createdAt = inc.createdAt ∧
     (patchMutations inc p now).updatedAt = inc.updatedAt) ∧
    (incidentValidates (patchMutations inc p now) = true →
      updateIncidentHandler inc p now =
        some { patchMutations inc p now with updatedAt := now }) ∧
    (incidentValidates (patchMutations inc p now) = false →
      updateIncidentHandler inc p now = none) := by
  obtain ⟨hs1, hs3⟩ := applyStatus_spec inc p.status now
  obtain ⟨ha1, ha2, ha3⟩ :=
    applyAssignee_spec (applyStatus inc p.status now) p.assignedTo now
  have hr1 := applyResolution_frame
    (applyAssignee (applyStatus inc p.status now) p.assignedTo now) p.resolution
  have hc1 := applyRootCause_frame
    (applyResolution
      (applyAssignee (applyStatus inc p.status now) p.assignedTo now)
      p.resolution) p.rootCause
  refine ⟨?_, ?_, ?_, ?_, ?_⟩
  · intro hstat hres
    unfold patchMutations
    rw [hc1.2.2.2.2.2.2.2.2.2.2.1, hr1.2.2.2.2.2.2.2.2.2.2.1, ha3]
    exact hs3 hstat hres
  · intro a hpa ha hack
    unfold patchMutations
    rw [hc1.2.2.2.2.2.2.2.2.2.1, hr1.2.2.2.2.2.2.2.2.2.1]
    exact ha2 a hpa ha (by rw [hs1.2.2.2.2.2.2.2.2.2.1]; exact hack)
  · unfold patchMutations
    refine ⟨?_, ?_, ?_, ?_, ?_, ?_, ?_, ?_⟩ <;>
      simp only [hc1.1, hc1.2.1, hc1.2.2.1, hc1.2.2.2.1, hc1.2.2.2.2.1,
        hc1.2.2.2.2.2.1, hc1.2.2.2.2.2.2.1, hc1.2.2.2.2.2.2.2.1,
        hr1.1, hr1.2.1, hr1.2.2.1, hr1.2.2.2.1, hr1.2.2.2.2.1,
        hr1.2.2.2.2.2.1, hr1.2.2.2.2.2.2.1, hr1.2.2.2.2.2.2.2.1,
        ha1.1, ha1.2.1, ha1.2.2.1, ha1.2.2.2.1, ha1.2.2.2.2.1,
        ha1.2.2.2.2.2.1, ha1.2.2.2.2.2.2.1, ha1.2.2.2.2.2.2.2.1,
        hs1.1, hs1.2.1, hs1.2.2.1, hs1.2.2.2.1, hs1.2.2.2.2.1,
        hs1.2.2.2.2.2.1, hs1.2.2.2.2.2.2.1, hs1.2.2.2.2.2.2.2.1]
  · intro hvalid
    unfold updateIncidentHandler saveIncident
    rw [hvalid]
    rfl
  · intro hinvalid
    unfold updateIncidentHandler saveIncident
    rw [hinvalid]
    rfl

/-- Witness for `patch_side_effects`: resolving and assigning
`sampleIncident` passes validation and persists a document with both
timestamps stamped and the frame fields untouched. -/
theorem patch_side_effects_witness :
    (patchMutations sampleIncident
      { status := some "resolved", assignedTo := some (some "alice"),
        resolution := none, rootCause := none } 7).resolvedAt = some 7 ∧
    (patchMutations sampleIncident
      { status := some "resolved", assignedTo := some (some "alice"),
        resolution := none, rootCause := none } 7).acknowledgedAt = some 7 ∧
    (patchMutations sampleIncident
      { status := some "resolved", assignedTo := some (some "alice"),
        resolution := none, rootCause := none } 7).eventIds =
      sampleIncident.eventIds ∧
    updateIncidentHandler sampleIncident
      { status := some "resolved", assignedTo := some (some "alice"),
        resolution := none, rootCause := none } 7 =
      some { patchMutations sampleIncident
        { status := some "resolved", assignedTo := some (some "alice"),
          resolution := none, rootCause := none } 7 with updatedAt := 7 } := by
  have h := patch_side_effects sampleIncident
    { status := some "resolved", assignedTo := some (some "alice"),
      resolution := none, rootCause := none } 7
  exact ⟨h.1 rfl rfl, h.2.1 "alice" rfl (by decide) rfl, h.2.2.1.2.1,
    h.2.2.2.1 (by decide)⟩

set_option maxRecDepth 100000 in
/-- C6.  Redaction is not idempotent: on `"user: Alice5551234567"` the
first pass replaces `user: Alice` with `[REDACTED_NAME]` (the digit run,
preceded by the letter `e`, offers no `\b` for the phone pattern), but the
placeholder's closing bracket creates a fresh word boundary, so a second
pass matches the phone pattern on the very same digits and changes the
text again: `redact(redact(x)) ≠ redact(x)`. -/
theorem redact_not_idempotent :
    (redactString (redactString "user: Alice5551234567").text).text ≠
      (redactString "user: Alice5551234567").text ∧
    (redactString "user: Alice5551234567").text =
      "[REDACTED_NAME]5551234567" ∧
    (redactString (redactString "user: Alice5551234567").text).text =
      "[REDACTED_NAME][REDACTED_PHONE]" := by
  refine ⟨?_, ?_, ?_⟩ <;> decide

lemma mem_insertByKeyDesc (key : α → Nat) (e a : α) :
    ∀ l, a ∈ insertByKeyDesc key e l ↔ a = e ∨ a ∈ l := by
  intro l
  induction l with
  | nil => simp [insertByKeyDesc]
  | cons x xs ih =>
      simp only [insertByKeyDesc]
      split
      · simp
      · simp only [List.mem_cons, ih]
        tauto

lemma mem_sortByKeyDesc (key : α → Nat) (a : α) :
    ∀ l, a ∈ sortByKeyDesc key l ↔ a ∈ l := by
  intro l
  induction l with
  | nil => simp [sortByKeyDesc]
  | cons x xs ih =>
      unfold sortByKeyDesc at *
      simp only [List.foldr_cons, mem_insertByKeyDesc, List.mem_cons, ih]

lemma foldl_invariant {α β : Type _} (f : β → α → β) (P : β → Prop)
    (l : List α) (b : β) (hb : P b)
    (hstep : ∀ b2 a, a ∈ l → P b2 → P (f b2 a)) : P (l.foldl f b) := by
  induction l generalizing b with
  | nil => exact hb
  | cons x t ih =>
      exact ih (f b x) (hstep b x (List.mem_cons_self x t) hb)
        (fun b2 a ha h2 => hstep b2 a (List.mem_cons_of_mem x ha) h2)

lemma addToClusters_subset (acc : List Cluster) (e : AEvent)
    (S : List AEvent) (hacc : ∀ c ∈ acc, ∀ x ∈ c.events, x ∈ S)
    (he : e ∈ S) :
    ∀ c ∈ addToClusters acc e, ∀ x ∈ c.events, x ∈ S := by
  intro c hc x hx
  unfold addToClusters at hc
  dsimp only at hc
  split at hc
  · obtain ⟨c0, hc0, hceq⟩ := List.mem_map.mp hc
    by_cases hkey : c0.key == e.service ++ ":" ++ extractErrorType e
    · rw [if_pos hkey] at hceq
      subst hceq
      simp only [List.mem_append, List.mem_singleton] at hx
      rcases hx with hx | hx
      · exact hacc c0 hc0 x hx
      · subst hx; exact he
    · rw [if_neg hkey] at hceq
      subst hceq
      exact hacc c0 hc0 x hx
  · simp only [List.mem_append, List.mem_singleton] at hc
    rcases hc with hc | hc
    · exact hacc c hc x hx
    · subst hc
      simp only [List.mem_singleton] at hx
      subst hx; exact he

lemma clusterEvents_subset (events : List AEvent) :
    ∀ c ∈ clusterEvents events, ∀ x ∈ c.events, x ∈ events := by
  unfold clusterEvents
  have := foldl_invariant addToClusters
    (fun acc => ∀ c ∈ acc, ∀ x ∈ c.events, x ∈ events) events []
    (by intro c hc; simp at hc)
    (fun acc e he hacc => addToClusters_subset acc e events hacc he)
  exact this

lemma getRecentEvents_unassigned (windowSize now : Nat)
    (events : List AEvent) :
    ∀ e ∈ getRecentEvents windowSize now events,
      e.incidentId = none ∧ e ∈ events := by
  intro e he
  unfold getRecentEvents at he
  rw [mem_sortByKeyDesc, List.mem_filter] at he
  obtain ⟨h1, h2⟩ := he
  simp only [Bool.and_eq_true, decide_eq_true_eq,
    Option.isNone_iff_eq_none] at h2
  exact ⟨h2.2, h1⟩

lemma assignIncident_mem (events : List AEvent) (ids : List Nat)
    (oid : Nat) (e : AEvent) (he : e ∈ events)
    (hc : ids.contains e.oid = false) :
    e ∈ assignIncident events ids oid := by
  unfold assignIncident
  refine List.mem_map.mpr ⟨e, he, ?_⟩
  rw [hc]
  simp

lemma assignIncident_length (events : List AEvent) (ids : List Nat)
    (oid : Nat) :
    (assignIncident events ids oid).length = events.length := by
  simp [assignIncident]

lemma newEventIds_sub (inc : AIncident) (cluster : Cluster) :
    ∀ i ∈ newEventIds inc cluster, ∃ x ∈ cluster.events, x.oid = i := by
  intro i hi
  unfold newEventIds at hi
  obtain ⟨x, hx, hxeq⟩ := List.mem_map.mp hi
  exact ⟨x, (List.mem_filter.mp hx).1, hxeq⟩

lemma processCluster_length (log10 : Nat → ℚ) (windowSize now : Nat)
    (spikeData : List (String × SpikeResult)) (s : RunState)
    (cluster : Cluster) :
    (processCluster log10 windowSize now spikeData s cluster).events.length =
      s.events.length := by
  unfold processCluster
  dsimp only
  cases hfe : findExistingIncident s.incidents cluster.service now windowSize with
  | none =>
      unfold createIncidentStep
      dsimp only
      rw [assignIncident_length]
  | some inc =>
      unfold updateIncidentStep
      dsimp only
      split
      · rfl
      · rw [assignIncident_length]

lemma processCluster_preserves (log10 : Nat → ℚ) (windowSize now : Nat)
    (spikeData : List (String × SpikeResult)) (s : RunState)
    (cluster : Cluster) (e : AEvent) (L : Nat)
    (hsafe : ∀ x ∈ cluster.events, x.oid ≠ e.oid)
    (hmem : e ∈ s.events) (hlen : s.events.length = L) :
    e ∈ (processCluster log10 windowSize now spikeData s cluster).events ∧
    (processCluster log10 windowSize now spikeData s cluster).events.length = L := by
  have hnotin : ∀ ids : List Nat,
      (∀ i ∈ ids, ∃ x ∈ cluster.events, x.oid = i) →
      ids.contains e.oid = false := by
    intro ids hids
    by_contra hcon
    have : e.oid ∈ ids := by
      have := Bool.not_eq_false (ids.contains e.oid) |>.mp hcon
      simpa using this
    obtain ⟨x, hx, hxeq⟩ := hids e.oid this
    exact hsafe x hx hxeq
  unfold processCluster
  dsimp only
  cases hfe : findExistingIncident s.incidents cluster.service now windowSize with
  | none =>
      unfold createIncidentStep
      dsimp only
      have hc := hnotin (cluster.events.map (fun x => x.oid))
        (by
          intro i hi
          obtain ⟨x, hx, hxeq⟩ := List.mem_map.mp hi
          exact ⟨x, hx, hxeq⟩)
      exact ⟨assignIncident_mem _ _ _ e hmem hc,
        by rw [assignIncident_length]; exact hlen⟩
  | some inc =>
      unfold updateIncidentStep
      dsimp only
      split
      · exact ⟨hmem, hlen⟩
      · have hc := hnotin (newEventIds inc cluster) (newEventIds_sub inc cluster)
        exact ⟨assignIncident_mem _ _ _ e hmem hc,
          by rw [assignIncident_length]; exact hlen⟩

lemma runAggregation_events (scfg : SpikeConfig) (windowSize : Nat)
    (sqrtQ : ℚ → ℚ) (log10 : Nat → ℚ) (now : Nat) (st : RunState) :
    (runAggregation scfg windowSize sqrtQ log10 now st).events =
      if (getRecentEvents windowSize now st.events).isEmpty then st.events
      else
        ((clusterEvents (getRecentEvents windowSize now st.events)).foldl
          (processCluster log10 windowSize now
            (checkSpikes scfg sqrtQ now
              (recordCounts scfg now st.stats
                (countByService (getRecentEvents windowSize now st.events)))
              (countByService (getRecentEvents windowSize now st.events))))
          { st with stats := (recordCounts scfg now st.stats (countByService (getRecentEvents windowSize now st.events))) }).events := by
  unfold runAggregation
  dsimp only
  split
  · rfl
  · split <;> rfl

/-- C1.  At-most-once incident assignment: provided event `_id`s are unique
(the store's primary-key invariant), an aggregation run leaves every event
whose `incidentId` is already set completely untouched (the event record,
incident reference included, is still in the store, whose size is
unchanged); a run only selects events with a null `incidentId`, and
`updateIncident` only back-links event ids not already referenced by the
incident. -/
theorem aggregation_at_most_once (scfg : SpikeConfig) (windowSize : Nat)
    (sqrtQ : ℚ → ℚ) (log10 : Nat → ℚ) (now : Nat) (st : RunState)
    (hids : (st.events.map (fun e => e.oid)).Nodup) :
    (∀ e ∈ st.events, ∀ i, e.incidentId = some i →
      e ∈ (runAggregation scfg windowSize sqrtQ log10 now st).events) ∧
    ((runAggregation scfg windowSize sqrtQ log10 now st).events.length =
      st.events.length) ∧
    (∀ e ∈ getRecentEvents windowSize now st.events, e.incidentId = none) ∧
    (∀ (inc : AIncident) (cluster : Cluster),
      ∀ i ∈ newEventIds inc cluster, ¬ i ∈ inc.eventIds) := by
  refine ⟨?_, ?_, ?_, ?_⟩
  · intro e he i hi
    rw [runAggregation_events]
    split
    · exact he
    · have hsafe : ∀ c ∈ clusterEvents (getRecentEvents windowSize now st.events),
          ∀ x ∈ c.events, x.oid ≠ e.oid := by
        intro c hc x hx hoid
        have hxin := clusterEvents_subset _ c hc x hx
        obtain ⟨hxnone, hxmem⟩ :=
          getRecentEvents_unassigned windowSize now st.events x hxin
        have hxe : x = e :=
          List.inj_on_of_nodup_map hids hxmem he hoid
        rw [hxe, hi] at hxnone
        exact Option.noConfusion hxnone
      have hinv := foldl_invariant
        (processCluster log10 windowSize now
          (checkSpikes scfg sqrtQ now
            (recordCounts scfg now st.stats
              (countByService (getRecentEvents windowSize now st.events)))
            (countByService (getRecentEvents windowSize now st.events))))
        (fun s => e ∈ s.events ∧ s.events.length = st.events.length)
        (clusterEvents (getRecentEvents windowSize now st.events))
        ({ st with stats := (recordCounts scfg now st.stats (countByService (getRecentEvents windowSize now st.events))) })
        ⟨he, rfl⟩
        (fun s2 c hc h2 =>
          processCluster_preserves log10 windowSize now _ s2 c e
            st.events.length (fun x hx => hsafe c hc x hx) h2.1 h2.2)
      exact hinv.1
  · rw [runAggregation_events]
    split
    · rfl
    · have hinv := foldl_invariant
        (processCluster log10 windowSize now
          (checkSpikes scfg sqrtQ now
            (recordCounts scfg now st.stats
              (countByService (getRecentEvents windowSize now st.events)))
            (countByService (getRecentEvents windowSize now st.events))))
        (fun s => s.events.length = st.events.length)
        (clusterEvents (getRecentEvents windowSize now st.events))
        ({ st with stats := (recordCounts scfg now st.stats (countByService (getRecentEvents windowSize now st.events))) })
        rfl
        (fun s2 c _ h2 => by
          show (processCluster _ _ _ _ s2 c).events.length = _
          rw [processCluster_length]; exact h2)
      exact hinv
  · intro e he
    exact (getRecentEvents_unassigned windowSize now st.events e he).1
  · intro inc cluster i hi hin
    unfold newEventIds at hi
    obtain ⟨x, hx, hxeq⟩ := List.mem_map.mp hi
    have hfl := (List.mem_filter.mp hx).2
    rw [hxeq] at hfl
    have : inc.eventIds.contains i = true := by simpa using hin
    rw [this] at hfl
    exact Bool.noConfusion hfl

/-- Witness for `aggregation_at_most_once`: in a store holding one already
assigned event and one unassigned event, a run leaves the assigned event
(and its `incidentId`) in place. -/
theorem aggregation_at_most_once_witness :
    ({ oid := 1, service := "a", severity := 3, timestamp := 90, metadata := [], incidentId := some 50 } : AEvent) ∈
      (runAggregation
        ({ windowSize := 300000, historyWindows := 12, stdDevThreshold := 2, minDataPoints := 3 } : SpikeConfig)
        300000 (fun _ => 0) (fun _ => 0) 100
        ({ events := [({ oid := 1, service := "a", severity := 3, timestamp := 90, metadata := [], incidentId := some 50 } : AEvent), ({ oid := 2, service := "a", severity := 3, timestamp := 95, metadata := [], incidentId := none } : AEvent)], incidents := [], stats := [], nextOid := 10, runs := 0, eventsProcessed := 0, incidentsCreated := 0, incidentsUpdated := 0 } : RunState)).events := by
  have h := aggregation_at_most_once
    ({ windowSize := 300000, historyWindows := 12, stdDevThreshold := 2, minDataPoints := 3 } : SpikeConfig)
    300000 (fun _ => 0) (fun _ => 0) 100
    ({ events := [({ oid := 1, service := "a", severity := 3, timestamp := 90, metadata := [], incidentId := some 50 } : AEvent), ({ oid := 2, service := "a", severity := 3, timestamp := 95, metadata := [], incidentId := none } : AEvent)], incidents := [], stats := [], nextOid := 10, runs := 0, eventsProcessed := 0, incidentsCreated := 0, incidentsUpdated := 0 } : RunState)
    (by decide)
  exact h.1 ({ oid := 1, service := "a", severity := 3, timestamp := 90, metadata := [], incidentId := some 50 } : AEvent) (by simp) 50 rfl

end IncidentCore
